import Mathlib

/-!
# The jsoncons visitor protocol

A shallow embedding of `include/jsoncons/json_visitor.hpp`:

* `basic_json_visitor<CharT>`: the public throwing and error-code forms, the
  virtual functions and the default bodies of the overridable ones (counted
  begin forms, `visit_half`, the eleven `visit_typed_array` overloads,
  `visit_begin_multi_dim`, `visit_end_multi_dim`);
* `basic_default_json_visitor<CharT>`: the configurable sink.

A C++ call `bool f(args, std::error_code& ec)` on a visitor object becomes a
function from the error slot and the object state before the call to an
`outcome`: the returned continuation signal, the error slot after the call and
the object state after the call.
-/

namespace jsoncons

/-! ## Data model -/

/-- Modelled from the spec: the semantic tag enumeration is declared in
`tag_type.hpp`, which is not among the sources.  The constructors are the tags
that `json_visitor.hpp` names, together with the column-major companion of
`multi_dim_row_major`. -/
inductive semantic_tag where
  | none
  | bigint
  | bigdec
  | datetime
  | timestamp
  | base16
  | base64
  | base64url
  | multi_dim_row_major
  | multi_dim_column_major
  deriving DecidableEq, Repr

/-- Modelled from the spec: the source context is declared in
`ser_context.hpp`, which is not among the sources.  The visitor only reads
`line()` and `column()`; the default constructed context reports position
`(0, 0)`. -/
structure ser_context where
  line : Nat
  column : Nat
  deriving DecidableEq, Repr

/-- The default constructed context `ser_context()`. -/
def ser_context.unknown : ser_context := ⟨0, 0⟩

/-- A `std::error_code`: an integer value within a category.  The categories
are identified by a number, `0` standing for the system category of the default
constructed code. -/
structure error_code where
  value : Int
  category : Nat
  deriving DecidableEq, Repr

/-- The default constructed `std::error_code()`: value `0`. -/
def error_code.empty : error_code := ⟨0, 0⟩

/-- The conversion `explicit operator bool` of `std::error_code`, as used in
`if (ec)`: the value is not zero. -/
def error_code.is_set (ec : error_code) : Bool := ec.value != 0

/-- The exception `ser_error(ec, line, column)`. -/
structure ser_error where
  ec : error_code
  line : Nat
  column : Nat
  deriving DecidableEq, Repr

/-- A `double`, as its IEEE-754 binary64 bit pattern. -/
abbrev double := Nat

/-- A `float`, as its IEEE-754 binary32 bit pattern. -/
abbrev float := Nat

/-- The floating point conversions the visitor relies on and does not define:
`jsoncons::detail::decode_half` (declared in a header that is not among the
sources) and the implicit widening of a `float` argument to `double`. -/
structure fp_conversions where
  decode_half : Nat → double
  float_to_double : float → double

/-- The index of the highest set bit of `m` below bit `bits` (`0` when there is
none). -/
def top_bit : Nat → Nat → Nat
  | 0, _ => 0
  | k + 1, m => if 2 ^ k ≤ m then k else top_bit k m

/-- The IEEE-754 widening of a binary floating point bit pattern with `e`
exponent bits and `m` mantissa bits to binary64: the sign is kept, the exponent
is moved from its bias to the bias 1023, the mantissa is shifted to the top of
the 52-bit mantissa field; a subnormal is normalised, an infinity stays an
infinity and a NaN becomes a quiet NaN that keeps the payload. -/
def widen_to_double (e m : Nat) (bits : Nat) : double :=
  let sign := bits / 2 ^ (e + m) % 2
  let exp := bits / 2 ^ m % 2 ^ e
  let mant := bits % 2 ^ m
  let bias := 2 ^ (e - 1) - 1
  let magnitude :=
    if exp = 2 ^ e - 1 then
      if mant = 0 then 2047 * 2 ^ 52
      else 2047 * 2 ^ 52 + 2 ^ 51 + mant % 2 ^ (m - 1) * 2 ^ (52 - m)
    else if exp = 0 then
      if mant = 0 then 0
      else
        (top_bit m mant + 1023 + 1 - bias - m) * 2 ^ 52
          + (mant - 2 ^ top_bit m mant) * 2 ^ (52 - top_bit m mant)
    else (exp + 1023 - bias) * 2 ^ 52 + mant * 2 ^ (52 - m)
  sign * 2 ^ 63 + magnitude

/-- Modelled from the spec: `jsoncons::detail::decode_half` is declared in a
header that is not among the sources.  The 16-bit half-float bit pattern is
decoded to a double by the standard IEEE-754 half to double widening (5
exponent bits with bias 15, 10 mantissa bits). -/
def decode_half (half : Nat) : double :=
  widen_to_double 5 10 (half % 2 ^ 16)

/-- The implicit conversion of a `float` to `double`: the IEEE-754 widening of
binary32 (8 exponent bits with bias 127, 23 mantissa bits), which is exact. -/
def float_to_double (x : float) : double :=
  widen_to_double 8 23 (x % 2 ^ 32)

/-- The conversions of an IEEE-754 platform. -/
def ieee : fp_conversions :=
  ⟨decode_half, float_to_double⟩

/-- The implicit conversion of an unsigned element to `uint64_t`. -/
def to_uint64 (x : Nat) : Nat := x % 2 ^ 64

/-- The implicit conversion of a signed element to `int64_t` (two's complement
on 64 bits). -/
def to_int64 (x : Int) : Int := (x + 2 ^ 63) % 2 ^ 64 - 2 ^ 63

/-- The result of a call `bool f(..., std::error_code& ec)` on a visitor with
state `σ`: the continuation signal, the error slot and the visitor state after
the call. -/
structure outcome (σ : Type) where
  more : Bool
  ec : error_code
  st : σ

/-- A visitor operation once its arguments are fixed: from the error slot and
the visitor state before the call to the outcome. -/
abbrev op (σ : Type) := error_code → σ → outcome σ

/-- The result of a throwing form: the continuation signal, or the raised
`ser_error`. -/
inductive thrown where
  | returned (more : Bool)
  | raised (e : ser_error)
  deriving DecidableEq, Repr

/-- The virtual functions of a concrete visitor class whose object state is
`σ`.  The pure virtual functions of `basic_json_visitor` are mandatory fields;
a virtual function that has a body in `basic_json_visitor` is an optional field,
`none` when the class does not override it. -/
structure visitor_impl (σ : Type) where
  visit_flush : σ → σ
  visit_begin_object : semantic_tag → ser_context → op σ
  visit_begin_object_length : Option (Nat → semantic_tag → ser_context → op σ) := none
  visit_end_object : ser_context → op σ
  visit_begin_array : semantic_tag → ser_context → op σ
  visit_begin_array_length : Option (Nat → semantic_tag → ser_context → op σ) := none
  visit_end_array : ser_context → op σ
  visit_key : String → ser_context → op σ
  visit_null : semantic_tag → ser_context → op σ
  visit_bool : Bool → semantic_tag → ser_context → op σ
  visit_string : String → semantic_tag → ser_context → op σ
  visit_byte_string : List Nat → semantic_tag → ser_context → op σ
  visit_uint64 : Nat → semantic_tag → ser_context → op σ
  visit_int64 : Int → semantic_tag → ser_context → op σ
  visit_half : Option (Nat → semantic_tag → ser_context → op σ) := none
  visit_double : double → semantic_tag → ser_context → op σ
  visit_typed_array_uint8 : Option (List Nat → semantic_tag → ser_context → op σ) := none
  visit_typed_array_uint16 : Option (List Nat → semantic_tag → ser_context → op σ) := none
  visit_typed_array_uint32 : Option (List Nat → semantic_tag → ser_context → op σ) := none
  visit_typed_array_uint64 : Option (List Nat → semantic_tag → ser_context → op σ) := none
  visit_typed_array_int8 : Option (List Int → semantic_tag → ser_context → op σ) := none
  visit_typed_array_int16 : Option (List Int → semantic_tag → ser_context → op σ) := none
  visit_typed_array_int32 : Option (List Int → semantic_tag → ser_context → op σ) := none
  visit_typed_array_int64 : Option (List Int → semantic_tag → ser_context → op σ) := none
  visit_typed_array_half : Option (List Nat → semantic_tag → ser_context → op σ) := none
  visit_typed_array_float : Option (List float → semantic_tag → ser_context → op σ) := none
  visit_typed_array_double : Option (List double → semantic_tag → ser_context → op σ) := none
  visit_begin_multi_dim : Option (List Nat → semantic_tag → ser_context → op σ) := none
  visit_end_multi_dim : Option (ser_context → op σ) := none

/-- The C++ loop `for (p = s.begin(); more && p != s.end(); ++p) { body }`: the
body runs on the next element while `more` holds; it receives the current value
of `more` and yields the value `more` has after the iteration. -/
def for_while {α σ : Type} (body : α → Bool → op σ) : List α → outcome σ → outcome σ
  | [], r => r
  | p :: ps, r => if r.more then for_while body ps (body p r.more r.ec r.st) else r

namespace basic_json_visitor

variable {σ : Type}

/-! ## Virtual functions with a body in the base class, and virtual calls

`visit_f v` is the body that `basic_json_visitor` gives to the virtual function
`visit_f`, run on an object of the class `v`; `vcall_f v` is the call
`this->visit_f(...)` on such an object: the override of the class when there is
one, the base body otherwise. -/

/-- The base body of `visit_begin_object(std::size_t, tag, context, ec)` (lines 594-600). -/
def visit_begin_object_length (v : visitor_impl σ) (_length : Nat) (tag : semantic_tag)
    (context : ser_context) : op σ :=
  v.visit_begin_object tag context

/-- The virtual call `visit_begin_object(length, tag, context, ec)`. -/
def vcall_begin_object_length (v : visitor_impl σ) (length : Nat) (tag : semantic_tag)
    (context : ser_context) : op σ :=
  match v.visit_begin_object_length with
  | some f => f length tag context
  | none => visit_begin_object_length v length tag context

/-- The base body of `visit_begin_array(std::size_t, tag, context, ec)` (lines 609-615). -/
def visit_begin_array_length (v : visitor_impl σ) (_length : Nat) (tag : semantic_tag)
    (context : ser_context) : op σ :=
  v.visit_begin_array tag context

/-- The virtual call `visit_begin_array(length, tag, context, ec)`. -/
def vcall_begin_array_length (v : visitor_impl σ) (length : Nat) (tag : semantic_tag)
    (context : ser_context) : op σ :=
  match v.visit_begin_array_length with
  | some f => f length tag context
  | none => visit_begin_array_length v length tag context

/-- The base body of `visit_half` (lines 653-662). -/
def visit_half (cv : fp_conversions) (v : visitor_impl σ) (value : Nat) (tag : semantic_tag)
    (context : ser_context) : op σ :=
  v.visit_double (cv.decode_half value) tag context

/-- The virtual call `visit_half(value, tag, context, ec)`. -/
def vcall_half (cv : fp_conversions) (v : visitor_impl σ) (value : Nat) (tag : semantic_tag)
    (context : ser_context) : op σ :=
  match v.visit_half with
  | some f => f value tag context
  | none => visit_half cv v value tag context

/-! ## Public error-code forms (lines 236-345) -/

/-- The form `begin_object(tag, context, ec)`. -/
def begin_object_ec (v : visitor_impl σ) (tag : semantic_tag) (context : ser_context) : op σ :=
  v.visit_begin_object tag context

/-- The form `begin_object(length, tag, context, ec)`. -/
def begin_object_length_ec (v : visitor_impl σ) (length : Nat) (tag : semantic_tag)
    (context : ser_context) : op σ :=
  vcall_begin_object_length v length tag context

/-- The form `end_object(context, ec)`. -/
def end_object_ec (v : visitor_impl σ) (context : ser_context) : op σ :=
  v.visit_end_object context

/-- The form `begin_array(tag, context, ec)`. -/
def begin_array_ec (v : visitor_impl σ) (tag : semantic_tag) (context : ser_context) : op σ :=
  v.visit_begin_array tag context

/-- The form `begin_array(length, tag, context, ec)`. -/
def begin_array_length_ec (v : visitor_impl σ) (length : Nat) (tag : semantic_tag)
    (context : ser_context) : op σ :=
  vcall_begin_array_length v length tag context

/-- The form `end_array(context, ec)`. -/
def end_array_ec (v : visitor_impl σ) (context : ser_context) : op σ :=
  v.visit_end_array context

/-- The form `key(name, context, ec)`. -/
def key_ec (v : visitor_impl σ) (name : String) (context : ser_context) : op σ :=
  v.visit_key name context

/-- The form `null_value(tag, context, ec)`. -/
def null_value_ec (v : visitor_impl σ) (tag : semantic_tag) (context : ser_context) : op σ :=
  v.visit_null tag context

/-- The form `bool_value(value, tag, context, ec)`. -/
def bool_value_ec (v : visitor_impl σ) (value : Bool) (tag : semantic_tag)
    (context : ser_context) : op σ :=
  v.visit_bool value tag context

/-- The form `string_value(value, tag, context, ec)`. -/
def string_value_ec (v : visitor_impl σ) (value : String) (tag : semantic_tag)
    (context : ser_context) : op σ :=
  v.visit_string value tag context

/-- The form `byte_string_value(b, tag, context, ec)`. -/
def byte_string_value_ec (v : visitor_impl σ) (b : List Nat) (tag : semantic_tag)
    (context : ser_context) : op σ :=
  v.visit_byte_string b tag context

/-- The form `uint64_value(value, tag, context, ec)`. -/
def uint64_value_ec (v : visitor_impl σ) (value : Nat) (tag : semantic_tag)
    (context : ser_context) : op σ :=
  v.visit_uint64 value tag context

/-- The form `int64_value(value, tag, context, ec)`. -/
def int64_value_ec (v : visitor_impl σ) (value : Int) (tag : semantic_tag)
    (context : ser_context) : op σ :=
  v.visit_int64 value tag context

/-- The form `half_value(value, tag, context, ec)`. -/
def half_value_ec (cv : fp_conversions) (v : visitor_impl σ) (value : Nat) (tag : semantic_tag)
    (context : ser_context) : op σ :=
  vcall_half cv v value tag context

/-- The form `double_value(value, tag, context, ec)`. -/
def double_value_ec (v : visitor_impl σ) (value : double) (tag : semantic_tag)
    (context : ser_context) : op σ :=
  v.visit_double value tag context

/-! ## Default decompositions (lines 669-882) -/

/-- The base body of `visit_typed_array(span<const uint8_t>, tag, context, ec)` (lines 669-684). -/
def visit_typed_array_uint8 (v : visitor_impl σ) (s : List Nat) (tag : semantic_tag)
    (context : ser_context) : op σ := fun ec st =>
  let r0 := begin_array_length_ec v s.length tag context ec st
  let r1 := for_while (fun p _ => uint64_value_ec v (to_uint64 p) semantic_tag.none context) s r0
  if r1.more then end_array_ec v context r1.ec r1.st else r1

/-- The base body of `visit_typed_array(span<const uint16_t>, tag, context, ec)` (lines 686-701). -/
def visit_typed_array_uint16 (v : visitor_impl σ) (s : List Nat) (tag : semantic_tag)
    (context : ser_context) : op σ := fun ec st =>
  let r0 := begin_array_length_ec v s.length tag context ec st
  let r1 := for_while (fun p _ => uint64_value_ec v (to_uint64 p) semantic_tag.none context) s r0
  if r1.more then end_array_ec v context r1.ec r1.st else r1

/-- The base body of `visit_typed_array(span<const uint32_t>, tag, context, ec)` (lines 703-718). -/
def visit_typed_array_uint32 (v : visitor_impl σ) (s : List Nat) (tag : semantic_tag)
    (context : ser_context) : op σ := fun ec st =>
  let r0 := begin_array_length_ec v s.length tag context ec st
  let r1 := for_while (fun p _ => uint64_value_ec v (to_uint64 p) semantic_tag.none context) s r0
  if r1.more then end_array_ec v context r1.ec r1.st else r1

/-- The base body of `visit_typed_array(span<const uint64_t>, tag, context, ec)` (lines 720-735). -/
def visit_typed_array_uint64 (v : visitor_impl σ) (s : List Nat) (tag : semantic_tag)
    (context : ser_context) : op σ := fun ec st =>
  let r0 := begin_array_length_ec v s.length tag context ec st
  let r1 := for_while (fun p _ => uint64_value_ec v (to_uint64 p) semantic_tag.none context) s r0
  if r1.more then end_array_ec v context r1.ec r1.st else r1

/-- The base body of `visit_typed_array(span<const int8_t>, tag, context, ec)` (lines 737-752). -/
def visit_typed_array_int8 (v : visitor_impl σ) (s : List Int) (tag : semantic_tag)
    (context : ser_context) : op σ := fun ec st =>
  let r0 := begin_array_length_ec v s.length tag context ec st
  let r1 := for_while (fun p _ => int64_value_ec v (to_int64 p) semantic_tag.none context) s r0
  if r1.more then end_array_ec v context r1.ec r1.st else r1

/-- The base body of `visit_typed_array(span<const int16_t>, tag, context, ec)` (lines 754-769). -/
def visit_typed_array_int16 (v : visitor_impl σ) (s : List Int) (tag : semantic_tag)
    (context : ser_context) : op σ := fun ec st =>
  let r0 := begin_array_length_ec v s.length tag context ec st
  let r1 := for_while (fun p _ => int64_value_ec v (to_int64 p) semantic_tag.none context) s r0
  if r1.more then end_array_ec v context r1.ec r1.st else r1

/-- The base body of `visit_typed_array(span<const int32_t>, tag, context, ec)` (lines 771-786). -/
def visit_typed_array_int32 (v : visitor_impl σ) (s : List Int) (tag : semantic_tag)
    (context : ser_context) : op σ := fun ec st =>
  let r0 := begin_array_length_ec v s.length tag context ec st
  let r1 := for_while (fun p _ => int64_value_ec v (to_int64 p) semantic_tag.none context) s r0
  if r1.more then end_array_ec v context r1.ec r1.st else r1

/-- The base body of `visit_typed_array(span<const int64_t>, tag, context, ec)` (lines 788-803). -/
def visit_typed_array_int64 (v : visitor_impl σ) (s : List Int) (tag : semantic_tag)
    (context : ser_context) : op σ := fun ec st =>
  let r0 := begin_array_length_ec v s.length tag context ec st
  let r1 := for_while (fun p _ => int64_value_ec v (to_int64 p) semantic_tag.none context) s r0
  if r1.more then end_array_ec v context r1.ec r1.st else r1

/-- The base body of `visit_typed_array(half_arg_t, span<const uint16_t>, tag, context, ec)` (lines 805-821). -/
def visit_typed_array_half (cv : fp_conversions) (v : visitor_impl σ) (s : List Nat) (tag : semantic_tag)
    (context : ser_context) : op σ := fun ec st =>
  let r0 := begin_array_length_ec v s.length tag context ec st
  let r1 := for_while (fun p _ => half_value_ec cv v p semantic_tag.none context) s r0
  if r1.more then end_array_ec v context r1.ec r1.st else r1

/-- The base body of `visit_typed_array(span<const float>, tag, context, ec)` (lines 823-838). -/
def visit_typed_array_float (cv : fp_conversions) (v : visitor_impl σ) (s : List float) (tag : semantic_tag)
    (context : ser_context) : op σ := fun ec st =>
  let r0 := begin_array_length_ec v s.length tag context ec st
  let r1 := for_while (fun p _ => double_value_ec v (cv.float_to_double p) semantic_tag.none context) s r0
  if r1.more then end_array_ec v context r1.ec r1.st else r1

/-- The base body of `visit_typed_array(span<const double>, tag, context, ec)` (lines 840-855). -/
def visit_typed_array_double (v : visitor_impl σ) (s : List double) (tag : semantic_tag)
    (context : ser_context) : op σ := fun ec st =>
  let r0 := begin_array_length_ec v s.length tag context ec st
  let r1 := for_while (fun p _ => double_value_ec v p semantic_tag.none context) s r0
  if r1.more then end_array_ec v context r1.ec r1.st else r1

/-- The base body of `visit_begin_multi_dim` (lines 857-876).  The loop over the
shape calls `visit_uint64` and discards what it returns, so `more` keeps its
value across the loop. -/
def visit_begin_multi_dim (v : visitor_impl σ) (shape : List Nat) (tag : semantic_tag)
    (context : ser_context) : op σ := fun ec st =>
  let r0 := vcall_begin_array_length v 2 tag context ec st
  if r0.more then
    let r1 := vcall_begin_array_length v shape.length tag context r0.ec r0.st
    let r2 := for_while
      (fun d more ec1 st1 =>
        let r := v.visit_uint64 (to_uint64 d) semantic_tag.none context ec1 st1
        ⟨more, r.ec, r.st⟩)
      shape r1
    if r2.more then v.visit_end_array context r2.ec r2.st else r2
  else r0

/-- The base body of `visit_end_multi_dim` (lines 878-882). -/
def visit_end_multi_dim (v : visitor_impl σ) (context : ser_context) : op σ :=
  v.visit_end_array context

/-- The argument of a `typed_array` call: a span of one of the numeric element
types, the span of `uint16_t` preceded by `half_arg` being the half-precision
one.  The constructor stands for the overload that C++ selects. -/
inductive typed_span where
  | uint8 (s : List Nat)
  | uint16 (s : List Nat)
  | uint32 (s : List Nat)
  | uint64 (s : List Nat)
  | int8 (s : List Int)
  | int16 (s : List Int)
  | int32 (s : List Int)
  | int64 (s : List Int)
  | half (s : List Nat)
  | float (s : List float)
  | double (s : List double)
  deriving DecidableEq, Repr

/-- The number of elements `s.size()` of a span. -/
def typed_span.size : typed_span → Nat
  | .uint8 s | .uint16 s | .uint32 s | .uint64 s => s.length
  | .int8 s | .int16 s | .int32 s | .int64 s => s.length
  | .half s | .float s | .double s => s.length

/-- The base body of the `visit_typed_array` overload that the span selects. -/
def visit_typed_array (cv : fp_conversions) (v : visitor_impl σ) :
    typed_span → semantic_tag → ser_context → op σ
  | .uint8 s => visit_typed_array_uint8 v s
  | .uint16 s => visit_typed_array_uint16 v s
  | .uint32 s => visit_typed_array_uint32 v s
  | .uint64 s => visit_typed_array_uint64 v s
  | .int8 s => visit_typed_array_int8 v s
  | .int16 s => visit_typed_array_int16 v s
  | .int32 s => visit_typed_array_int32 v s
  | .int64 s => visit_typed_array_int64 v s
  | .half s => visit_typed_array_half cv v s
  | .float s => visit_typed_array_float cv v s
  | .double s => visit_typed_array_double v s

/-- The override that the class has for the `visit_typed_array` overload that
the span selects, if any. -/
def typed_array_override (v : visitor_impl σ) :
    typed_span → Option (semantic_tag → ser_context → op σ)
  | .uint8 s => (v.visit_typed_array_uint8).map (fun f => f s)
  | .uint16 s => (v.visit_typed_array_uint16).map (fun f => f s)
  | .uint32 s => (v.visit_typed_array_uint32).map (fun f => f s)
  | .uint64 s => (v.visit_typed_array_uint64).map (fun f => f s)
  | .int8 s => (v.visit_typed_array_int8).map (fun f => f s)
  | .int16 s => (v.visit_typed_array_int16).map (fun f => f s)
  | .int32 s => (v.visit_typed_array_int32).map (fun f => f s)
  | .int64 s => (v.visit_typed_array_int64).map (fun f => f s)
  | .half s => (v.visit_typed_array_half).map (fun f => f s)
  | .float s => (v.visit_typed_array_float).map (fun f => f s)
  | .double s => (v.visit_typed_array_double).map (fun f => f s)

/-- The virtual call `visit_typed_array(data, tag, context, ec)`. -/
def vcall_typed_array (cv : fp_conversions) (v : visitor_impl σ) (data : typed_span)
    (tag : semantic_tag) (context : ser_context) : op σ :=
  match typed_array_override v data with
  | some f => f tag context
  | none => visit_typed_array cv v data tag context

/-- The virtual call `visit_begin_multi_dim(shape, tag, context, ec)`. -/
def vcall_begin_multi_dim (v : visitor_impl σ) (shape : List Nat) (tag : semantic_tag)
    (context : ser_context) : op σ :=
  match v.visit_begin_multi_dim with
  | some f => f shape tag context
  | none => visit_begin_multi_dim v shape tag context

/-- The virtual call `visit_end_multi_dim(context, ec)`. -/
def vcall_end_multi_dim (v : visitor_impl σ) (context : ser_context) : op σ :=
  match v.visit_end_multi_dim with
  | some f => f context
  | none => visit_end_multi_dim v context

/-! ## Public error-code forms of the compound operations (lines 361-427) -/

/-- The forms `typed_array(data, tag, context, ec)` and
`typed_array(half_arg, s, tag, context, ec)`. -/
def typed_array_ec (cv : fp_conversions) (v : visitor_impl σ) (data : typed_span)
    (tag : semantic_tag) (context : ser_context) : op σ :=
  vcall_typed_array cv v data tag context

/-- The form `begin_multi_dim(shape, tag, context, ec)`. -/
def begin_multi_dim_ec (v : visitor_impl σ) (shape : List Nat) (tag : semantic_tag)
    (context : ser_context) : op σ :=
  vcall_begin_multi_dim v shape tag context

/-- The form `end_multi_dim(context, ec)`. -/
def end_multi_dim_ec (v : visitor_impl σ) (context : ser_context) : op σ :=
  vcall_end_multi_dim v context

/-! ## Public throwing forms (lines 38-234, 347-421) -/

/-- The tail shared by the throwing forms:
`if (ec) JSONCONS_THROW(ser_error(ec, context.line(), context.column())); return more;`. -/
def throw_if_set (context : ser_context) (r : outcome σ) : thrown × σ :=
  if r.ec.is_set then (thrown.raised ⟨r.ec, context.line, context.column⟩, r.st)
  else (thrown.returned r.more, r.st)

/-- The operation `flush()`. -/
def flush (v : visitor_impl σ) (st : σ) : σ :=
  v.visit_flush st

/-- The throwing form `begin_object(tag, context)`. -/
def begin_object (v : visitor_impl σ) (tag : semantic_tag) (context : ser_context)
    (st : σ) : thrown × σ :=
  throw_if_set context (v.visit_begin_object tag context error_code.empty st)

/-- The throwing form `begin_object(length, tag, context)`. -/
def begin_object_length (v : visitor_impl σ) (length : Nat) (tag : semantic_tag) (context : ser_context)
    (st : σ) : thrown × σ :=
  throw_if_set context (vcall_begin_object_length v length tag context error_code.empty st)

/-- The throwing form `end_object(context)`. -/
def end_object (v : visitor_impl σ) (context : ser_context)
    (st : σ) : thrown × σ :=
  throw_if_set context (v.visit_end_object context error_code.empty st)

/-- The throwing form `begin_array(tag, context)`. -/
def begin_array (v : visitor_impl σ) (tag : semantic_tag) (context : ser_context)
    (st : σ) : thrown × σ :=
  throw_if_set context (v.visit_begin_array tag context error_code.empty st)

/-- The throwing form `begin_array(length, tag, context)`. -/
def begin_array_length (v : visitor_impl σ) (length : Nat) (tag : semantic_tag) (context : ser_context)
    (st : σ) : thrown × σ :=
  throw_if_set context (vcall_begin_array_length v length tag context error_code.empty st)

/-- The throwing form `end_array(context)`. -/
def end_array (v : visitor_impl σ) (context : ser_context)
    (st : σ) : thrown × σ :=
  throw_if_set context (v.visit_end_array context error_code.empty st)

/-- The throwing form `key(name, context)`. -/
def key (v : visitor_impl σ) (name : String) (context : ser_context)
    (st : σ) : thrown × σ :=
  throw_if_set context (v.visit_key name context error_code.empty st)

/-- The throwing form `null_value(tag, context)`. -/
def null_value (v : visitor_impl σ) (tag : semantic_tag) (context : ser_context)
    (st : σ) : thrown × σ :=
  throw_if_set context (v.visit_null tag context error_code.empty st)

/-- The throwing form `bool_value(value, tag, context)`. -/
def bool_value (v : visitor_impl σ) (value : Bool) (tag : semantic_tag) (context : ser_context)
    (st : σ) : thrown × σ :=
  throw_if_set context (v.visit_bool value tag context error_code.empty st)

/-- The throwing form `string_value(value, tag, context)`. -/
def string_value (v : visitor_impl σ) (value : String) (tag : semantic_tag) (context : ser_context)
    (st : σ) : thrown × σ :=
  throw_if_set context (v.visit_string value tag context error_code.empty st)

/-- The throwing form `byte_string_value(b, tag, context)`. -/
def byte_string_value (v : visitor_impl σ) (b : List Nat) (tag : semantic_tag) (context : ser_context)
    (st : σ) : thrown × σ :=
  throw_if_set context (v.visit_byte_string b tag context error_code.empty st)

/-- The throwing form `uint64_value(value, tag, context)`. -/
def uint64_value (v : visitor_impl σ) (value : Nat) (tag : semantic_tag) (context : ser_context)
    (st : σ) : thrown × σ :=
  throw_if_set context (v.visit_uint64 value tag context error_code.empty st)

/-- The throwing form `int64_value(value, tag, context)`. -/
def int64_value (v : visitor_impl σ) (value : Int) (tag : semantic_tag) (context : ser_context)
    (st : σ) : thrown × σ :=
  throw_if_set context (v.visit_int64 value tag context error_code.empty st)

/-- The throwing form `half_value(value, tag, context)`. -/
def half_value (cv : fp_conversions) (v : visitor_impl σ) (value : Nat) (tag : semantic_tag) (context : ser_context)
    (st : σ) : thrown × σ :=
  throw_if_set context (vcall_half cv v value tag context error_code.empty st)

/-- The throwing form `double_value(value, tag, context)`. -/
def double_value (v : visitor_impl σ) (value : double) (tag : semantic_tag) (context : ser_context)
    (st : σ) : thrown × σ :=
  throw_if_set context (v.visit_double value tag context error_code.empty st)

/-- The throwing form `typed_array(data, tag, context)` and `typed_array(half_arg, s, tag, context)`. -/
def typed_array (cv : fp_conversions) (v : visitor_impl σ) (data : typed_span) (tag : semantic_tag) (context : ser_context)
    (st : σ) : thrown × σ :=
  throw_if_set context (vcall_typed_array cv v data tag context error_code.empty st)

/-- The throwing form `begin_multi_dim(shape, tag, context)`. -/
def begin_multi_dim (v : visitor_impl σ) (shape : List Nat) (tag : semantic_tag) (context : ser_context)
    (st : σ) : thrown × σ :=
  throw_if_set context (vcall_begin_multi_dim v shape tag context error_code.empty st)

/-- The throwing form `end_multi_dim(context)`. -/
def end_multi_dim (v : visitor_impl σ) (context : ser_context)
    (st : σ) : thrown × σ :=
  throw_if_set context (vcall_end_multi_dim v context error_code.empty st)

end basic_json_visitor

open basic_json_visitor


/-! ## The sink visitor `basic_default_json_visitor` (lines 885-1019) -/

/-- The data members of `basic_default_json_visitor`. -/
structure basic_default_json_visitor where
  parse_more_ : Bool
  ec_ : error_code
  deriving DecidableEq, Repr

namespace basic_default_json_visitor

/-- The constructor `basic_default_json_visitor(accept_more, ec)`. -/
def make (accept_more : Bool) (ec : error_code) : basic_default_json_visitor :=
  ⟨accept_more, ec⟩

/-- The constructor called without arguments: `accept_more = true` and the empty
error code. -/
def make_default : basic_default_json_visitor :=
  make true error_code.empty

/-- The body that every `visit_*` override of the sink has:
`if (ec_) { ec = ec_; } return parse_more_;`. -/
def visit_body : op basic_default_json_visitor := fun ec st =>
  ⟨st.parse_more_, if st.ec_.is_set then st.ec_ else ec, st⟩

/-- The virtual functions of the sink: the thirteen pure virtual functions and
`visit_half` are overridden, nothing else is. -/
def impl : visitor_impl basic_default_json_visitor where
  visit_flush := fun st => st
  visit_begin_object := fun _ _ => visit_body
  visit_end_object := fun _ => visit_body
  visit_begin_array := fun _ _ => visit_body
  visit_end_array := fun _ => visit_body
  visit_key := fun _ _ => visit_body
  visit_null := fun _ _ => visit_body
  visit_string := fun _ _ _ => visit_body
  visit_byte_string := fun _ _ _ => visit_body
  visit_uint64 := fun _ _ _ => visit_body
  visit_int64 := fun _ _ _ => visit_body
  visit_half := some (fun _ _ _ => visit_body)
  visit_double := fun _ _ _ => visit_body
  visit_bool := fun _ _ _ => visit_body

end basic_default_json_visitor

/-! ## Events and calls -/

/-- A call of a scalar or container operation of the public interface, with its
arguments. -/
inductive event where
  | begin_object (tag : semantic_tag) (context : ser_context)
  | begin_object_length (length : Nat) (tag : semantic_tag) (context : ser_context)
  | end_object (context : ser_context)
  | begin_array (tag : semantic_tag) (context : ser_context)
  | begin_array_length (length : Nat) (tag : semantic_tag) (context : ser_context)
  | end_array (context : ser_context)
  | key (name : String) (context : ser_context)
  | null_value (tag : semantic_tag) (context : ser_context)
  | bool_value (value : Bool) (tag : semantic_tag) (context : ser_context)
  | string_value (value : String) (tag : semantic_tag) (context : ser_context)
  | byte_string_value (b : List Nat) (tag : semantic_tag) (context : ser_context)
  | uint64_value (value : Nat) (tag : semantic_tag) (context : ser_context)
  | int64_value (value : Int) (tag : semantic_tag) (context : ser_context)
  | half_value (value : Nat) (tag : semantic_tag) (context : ser_context)
  | double_value (value : double) (tag : semantic_tag) (context : ser_context)
  deriving DecidableEq, Repr

/-- The context argument of the call. -/
def event.context : event → ser_context
  | .begin_object _ c | .begin_object_length _ _ c | .end_object c => c
  | .begin_array _ c | .begin_array_length _ _ c | .end_array c => c
  | .key _ c | .null_value _ c | .bool_value _ _ c | .string_value _ _ c => c
  | .byte_string_value _ _ c | .uint64_value _ _ c | .int64_value _ _ c => c
  | .half_value _ _ c | .double_value _ _ c => c

/-- The call made through the error-code form. -/
def emit {σ : Type} (cv : fp_conversions) (v : visitor_impl σ) : event → op σ
  | .begin_object tag c => begin_object_ec v tag c
  | .begin_object_length n tag c => begin_object_length_ec v n tag c
  | .end_object c => end_object_ec v c
  | .begin_array tag c => begin_array_ec v tag c
  | .begin_array_length n tag c => begin_array_length_ec v n tag c
  | .end_array c => end_array_ec v c
  | .key name c => key_ec v name c
  | .null_value tag c => null_value_ec v tag c
  | .bool_value b tag c => bool_value_ec v b tag c
  | .string_value x tag c => string_value_ec v x tag c
  | .byte_string_value b tag c => byte_string_value_ec v b tag c
  | .uint64_value x tag c => uint64_value_ec v x tag c
  | .int64_value x tag c => int64_value_ec v x tag c
  | .half_value x tag c => half_value_ec cv v x tag c
  | .double_value x tag c => double_value_ec v x tag c

/-- The call made through the throwing form. -/
def emit_throwing {σ : Type} (cv : fp_conversions) (v : visitor_impl σ) :
    event → σ → thrown × σ
  | .begin_object tag c => begin_object v tag c
  | .begin_object_length n tag c => begin_object_length v n tag c
  | .end_object c => end_object v c
  | .begin_array tag c => begin_array v tag c
  | .begin_array_length n tag c => begin_array_length v n tag c
  | .end_array c => end_array v c
  | .key name c => key v name c
  | .null_value tag c => null_value v tag c
  | .bool_value b tag c => bool_value v b tag c
  | .string_value x tag c => string_value v x tag c
  | .byte_string_value b tag c => byte_string_value v b tag c
  | .uint64_value x tag c => uint64_value v x tag c
  | .int64_value x tag c => int64_value v x tag c
  | .half_value x tag c => half_value cv v x tag c
  | .double_value x tag c => double_value v x tag c

/-- A call of any operation of the public interface that has both forms. -/
inductive call where
  | scalar (e : event)
  | typed_array (data : basic_json_visitor.typed_span) (tag : semantic_tag)
      (context : ser_context)
  | begin_multi_dim (shape : List Nat) (tag : semantic_tag) (context : ser_context)
  | end_multi_dim (context : ser_context)
  deriving DecidableEq, Repr

/-- The context argument of the call. -/
def call.context : call → ser_context
  | .scalar e => e.context
  | .typed_array _ _ c | .begin_multi_dim _ _ c | .end_multi_dim c => c

/-- The call made through the error-code form. -/
def call.run_ec {σ : Type} (cv : fp_conversions) (v : visitor_impl σ) : call → op σ
  | .scalar e => emit cv v e
  | .typed_array data tag c => typed_array_ec cv v data tag c
  | .begin_multi_dim shape tag c => begin_multi_dim_ec v shape tag c
  | .end_multi_dim c => end_multi_dim_ec v c

/-- The call made through the throwing form. -/
def call.run_throwing {σ : Type} (cv : fp_conversions) (v : visitor_impl σ) :
    call → σ → thrown × σ
  | .scalar e => emit_throwing cv v e
  | .typed_array data tag c => basic_json_visitor.typed_array cv v data tag c
  | .begin_multi_dim shape tag c => basic_json_visitor.begin_multi_dim v shape tag c
  | .end_multi_dim c => basic_json_visitor.end_multi_dim v c

/-- Manual emission: the calls are made one after the other through the
error-code forms, whatever they return; the outcome is that of the last call. -/
def emit_all {σ : Type} (cv : fp_conversions) (v : visitor_impl σ) (evs : List event) :
    op σ := fun ec st =>
  evs.foldl (fun r e => emit cv v e r.ec r.st) ⟨true, ec, st⟩

/-- The continuation signals that the visitor returns, call after call, during
the manual emission of the events. -/
def answers {σ : Type} (cv : fp_conversions) (v : visitor_impl σ) :
    List event → error_code → σ → List Bool
  | [], _, _ => []
  | e :: es, ec, st =>
    (emit cv v e ec st).more :: answers cv v es (emit cv v e ec st).ec (emit cv v e ec st).st

/-- The element events of a typed array: one scalar event per element, in span
order, with tag none and the context of the call. -/
def element_events (cv : fp_conversions) (context : ser_context) :
    basic_json_visitor.typed_span → List event
  | .uint8 s | .uint16 s | .uint32 s | .uint64 s =>
    s.map (fun p => event.uint64_value (to_uint64 p) semantic_tag.none context)
  | .int8 s | .int16 s | .int32 s | .int64 s =>
    s.map (fun p => event.int64_value (to_int64 p) semantic_tag.none context)
  | .half s => s.map (fun p => event.half_value p semantic_tag.none context)
  | .float s =>
    s.map (fun p => event.double_value (cv.float_to_double p) semantic_tag.none context)
  | .double s => s.map (fun p => event.double_value p semantic_tag.none context)

/-- The event sequence of a typed array: `begin_array(N, tag, context)`, the
element events, `end_array(context)`. -/
def typed_array_events (cv : fp_conversions) (data : basic_json_visitor.typed_span)
    (tag : semantic_tag) (context : ser_context) : List event :=
  event.begin_array_length data.size tag context
    :: (element_events cv context data ++ [event.end_array context])

/-- The event sequence that opens a multi-dimensional array whose shape array
is opened with the tag `inner`: `begin_array(2, tag)`, `begin_array(rank, inner)`,
one `uint64_value` per dimension, `end_array`. -/
def multi_dim_events (shape : List Nat) (tag inner : semantic_tag) (context : ser_context) :
    List event :=
  event.begin_array_length 2 tag context
    :: event.begin_array_length shape.length inner context
    :: (shape.map (fun d => event.uint64_value (to_uint64 d) semantic_tag.none context)
        ++ [event.end_array context])

/-! ## Test doubles -/

/-- What a recording visitor answers to a call: the continuation signal, and
the error code it writes into the slot, if it writes one. -/
structure reply where
  more : Bool
  error : Option error_code

/-- The body of every operation of a recording visitor: the call is appended to
the log, and the policy decides the answer from the log so far and the call. -/
def record (policy : List event → event → reply) (e : event) : op (List event) :=
  fun ec log => ⟨(policy log e).more, ((policy log e).error).getD ec, log ++ [e]⟩

/-- A primitive-only recording visitor: it overrides the pure virtual functions
and nothing else. -/
def recording_visitor (policy : List event → event → reply) : visitor_impl (List event) where
  visit_flush := fun log => log
  visit_begin_object := fun tag c => record policy (.begin_object tag c)
  visit_end_object := fun c => record policy (.end_object c)
  visit_begin_array := fun tag c => record policy (.begin_array tag c)
  visit_end_array := fun c => record policy (.end_array c)
  visit_key := fun name c => record policy (.key name c)
  visit_null := fun tag c => record policy (.null_value tag c)
  visit_bool := fun b tag c => record policy (.bool_value b tag c)
  visit_string := fun x tag c => record policy (.string_value x tag c)
  visit_byte_string := fun b tag c => record policy (.byte_string_value b tag c)
  visit_uint64 := fun x tag c => record policy (.uint64_value x tag c)
  visit_int64 := fun x tag c => record policy (.int64_value x tag c)
  visit_double := fun x tag c => record policy (.double_value x tag c)

/-- A recording visitor that also overrides the counted begin forms and
`visit_half`, so that its log keeps the length and the half bit pattern. -/
def full_recording_visitor (policy : List event → event → reply) :
    visitor_impl (List event) :=
  { recording_visitor policy with
    visit_begin_object_length := some (fun n tag c => record policy (.begin_object_length n tag c))
    visit_begin_array_length := some (fun n tag c => record policy (.begin_array_length n tag c))
    visit_half := some (fun x tag c => record policy (.half_value x tag c)) }

/-- The policy that answers continue to every call and writes no error. -/
def always_continue : List event → event → reply :=
  fun _ _ => ⟨true, none⟩

/-- The policy that answers stop to the call number `k` (counted from 1) and
continue to the others, and writes no error. -/
def stop_at (k : Nat) : List event → event → reply :=
  fun log _ => ⟨log.length + 1 != k, none⟩

/-- The policy that answers continue to every call and writes the error code
`e` into the slot at every call. -/
def continue_with_error (e : error_code) : List event → event → reply :=
  fun _ _ => ⟨true, some e⟩

/-- The policy that answers stop to every `uint64_value` call and continue to
the others, and writes no error. -/
def stop_on_uint64 : List event → event → reply :=
  fun _ e => match e with
    | .uint64_value _ _ _ => ⟨false, none⟩
    | _ => ⟨true, none⟩

/-- The visitor overrides none of the virtual functions that have a body in
`basic_json_visitor`. -/
def visitor_impl.primitive_only {σ : Type} (v : visitor_impl σ) : Bool :=
  v.visit_begin_object_length.isNone && v.visit_begin_array_length.isNone
    && v.visit_half.isNone
    && v.visit_typed_array_uint8.isNone && v.visit_typed_array_uint16.isNone
    && v.visit_typed_array_uint32.isNone && v.visit_typed_array_uint64.isNone
    && v.visit_typed_array_int8.isNone && v.visit_typed_array_int16.isNone
    && v.visit_typed_array_int32.isNone && v.visit_typed_array_int64.isNone
    && v.visit_typed_array_half.isNone && v.visit_typed_array_float.isNone
    && v.visit_typed_array_double.isNone
    && v.visit_begin_multi_dim.isNone && v.visit_end_multi_dim.isNone

/-- Every primitive operation of the visitor (the pure virtual functions that
return a continuation signal) returns continue, whatever the arguments, the
error slot and the state. -/
structure primitives_continue {σ : Type} (v : visitor_impl σ) : Prop where
  begin_object : ∀ tag c ec st, (v.visit_begin_object tag c ec st).more = true
  end_object : ∀ c ec st, (v.visit_end_object c ec st).more = true
  begin_array : ∀ tag c ec st, (v.visit_begin_array tag c ec st).more = true
  end_array : ∀ c ec st, (v.visit_end_array c ec st).more = true
  key : ∀ name c ec st, (v.visit_key name c ec st).more = true
  null : ∀ tag c ec st, (v.visit_null tag c ec st).more = true
  bool : ∀ b tag c ec st, (v.visit_bool b tag c ec st).more = true
  string : ∀ x tag c ec st, (v.visit_string x tag c ec st).more = true
  byte_string : ∀ b tag c ec st, (v.visit_byte_string b tag c ec st).more = true
  uint64 : ∀ x tag c ec st, (v.visit_uint64 x tag c ec st).more = true
  int64 : ∀ x tag c ec st, (v.visit_int64 x tag c ec st).more = true
  double : ∀ x tag c ec st, (v.visit_double x tag c ec st).more = true

/-- Emission with cancellation: the calls are made one after the other through
the error-code forms, as long as the last one returned continue. -/
def emit_while {σ : Type} (cv : fp_conversions) (v : visitor_impl σ) (evs : List event)
    (r : outcome σ) : outcome σ :=
  for_while (fun e _ => emit cv v e) evs r

/-- Manual emission from an outcome: every call is made, from the error slot
and the state that the previous one left. -/
def emit_seq {σ : Type} (cv : fp_conversions) (v : visitor_impl σ) (evs : List event)
    (r : outcome σ) : outcome σ :=
  evs.foldl (fun r e => emit cv v e r.ec r.st) r

/-- The visitor returns continue to every scalar or container call, whatever
the error slot and the state. -/
def always_continues {σ : Type} (cv : fp_conversions) (v : visitor_impl σ) : Prop :=
  ∀ e ec st, (emit cv v e ec st).more = true

/-- Every primitive operation of the visitor leaves the error slot as it found
it, whatever the arguments, the error slot and the state. -/
structure primitives_keep_slot {σ : Type} (v : visitor_impl σ) : Prop where
  begin_object : ∀ tag c ec st, (v.visit_begin_object tag c ec st).ec = ec
  end_object : ∀ c ec st, (v.visit_end_object c ec st).ec = ec
  begin_array : ∀ tag c ec st, (v.visit_begin_array tag c ec st).ec = ec
  end_array : ∀ c ec st, (v.visit_end_array c ec st).ec = ec
  key : ∀ name c ec st, (v.visit_key name c ec st).ec = ec
  null : ∀ tag c ec st, (v.visit_null tag c ec st).ec = ec
  bool : ∀ b tag c ec st, (v.visit_bool b tag c ec st).ec = ec
  string : ∀ x tag c ec st, (v.visit_string x tag c ec st).ec = ec
  byte_string : ∀ b tag c ec st, (v.visit_byte_string b tag c ec st).ec = ec
  uint64 : ∀ x tag c ec st, (v.visit_uint64 x tag c ec st).ec = ec
  int64 : ∀ x tag c ec st, (v.visit_int64 x tag c ec st).ec = ec
  double : ∀ x tag c ec st, (v.visit_double x tag c ec st).ec = ec

/-! ## Values of type `double` -/

/-- The bit pattern of the double `1.0`: sign 0, biased exponent 1023,
mantissa 0. -/
def double_one : double := 1023 * 2 ^ 52

/-- The bit pattern of the double `+0.0`: every bit is zero. -/
def double_positive_zero : double := 0

/-- The bit pattern of the double `+infinity`: sign 0, exponent field all
ones, mantissa 0. -/
def double_positive_infinity : double := 2047 * 2 ^ 52

/-- The bit pattern is a NaN: exponent field all ones, mantissa not zero. -/
def double_is_nan (d : double) : Bool :=
  d / 2 ^ 52 % 2 ^ 11 == 2047 && d % 2 ^ 52 != 0

/-! ## Default arguments of the throwing forms -/

/-- The trailing arguments `tag` and `context` of a call of a throwing form;
C++ lets the caller leave them out from the right. -/
inductive trailing_args where
  | omitted
  | tag (tag : semantic_tag)
  | tag_context (tag : semantic_tag) (context : ser_context)
  deriving DecidableEq, Repr

/-- An operation of the public interface whose throwing form accepts a
semantic tag, with the arguments that precede the tag. -/
inductive tagged_operation where
  | begin_object
  | begin_object_length (length : Nat)
  | begin_array
  | begin_array_length (length : Nat)
  | null_value
  | bool_value (value : Bool)
  | string_value (value : String)
  | byte_string_value (b : List Nat)
  | uint64_value (value : Nat)
  | int64_value (value : Int)
  | half_value (value : Nat)
  | double_value (value : double)
  | typed_array (data : typed_span)
  | begin_multi_dim (shape : List Nat)
  deriving DecidableEq, Repr

/-- The default argument that the declaration of the throwing form gives to
its parameter `tag` (lines 43, 56, 79, 92, 126, 139, 152, 165, 185, 198, 211,
224, 349 and 371, 392). -/
def tagged_operation.default_tag : tagged_operation → semantic_tag
  | .begin_object => semantic_tag.none
  | .begin_object_length _ => semantic_tag.none
  | .begin_array => semantic_tag.none
  | .begin_array_length _ => semantic_tag.none
  | .null_value => semantic_tag.none
  | .bool_value _ => semantic_tag.none
  | .string_value _ => semantic_tag.none
  | .byte_string_value _ => semantic_tag.none
  | .uint64_value _ => semantic_tag.none
  | .int64_value _ => semantic_tag.none
  | .half_value _ => semantic_tag.none
  | .double_value _ => semantic_tag.none
  | .typed_array _ => semantic_tag.none
  | .begin_multi_dim _ => semantic_tag.multi_dim_row_major

/-- The call of the operation with the given tag and context. -/
def tagged_operation.to_call : tagged_operation → semantic_tag → ser_context → call
  | .begin_object, tag, c => call.scalar (event.begin_object tag c)
  | .begin_object_length n, tag, c => call.scalar (event.begin_object_length n tag c)
  | .begin_array, tag, c => call.scalar (event.begin_array tag c)
  | .begin_array_length n, tag, c => call.scalar (event.begin_array_length n tag c)
  | .null_value, tag, c => call.scalar (event.null_value tag c)
  | .bool_value b, tag, c => call.scalar (event.bool_value b tag c)
  | .string_value x, tag, c => call.scalar (event.string_value x tag c)
  | .byte_string_value b, tag, c => call.scalar (event.byte_string_value b tag c)
  | .uint64_value x, tag, c => call.scalar (event.uint64_value x tag c)
  | .int64_value x, tag, c => call.scalar (event.int64_value x tag c)
  | .half_value x, tag, c => call.scalar (event.half_value x tag c)
  | .double_value x, tag, c => call.scalar (event.double_value x tag c)
  | .typed_array data, tag, c => call.typed_array data tag c
  | .begin_multi_dim shape, tag, c => call.begin_multi_dim shape tag c

/-- The call of the throwing form that C++ makes when trailing arguments are
left out: a missing tag is the default argument of the declaration, a missing
context is `ser_context()`. -/
def tagged_operation.call_with (o : tagged_operation) : trailing_args → call
  | .omitted => o.to_call o.default_tag ser_context.unknown
  | .tag t => o.to_call t ser_context.unknown
  | .tag_context t c => o.to_call t c

/-! ## Nesting of an event sequence -/

/-- The kind of an open container. -/
inductive container where
  | object
  | array
  deriving DecidableEq, Repr

/-- The stack of open containers after the events, from the stack before
them: a begin event pushes its kind, an end event pops the container it closes,
which has to be the innermost open one and of its kind; `none` when an end
event finds no such container. -/
def nesting : List event → List container → Option (List container)
  | [], stack => some stack
  | .begin_object _ _ :: es, stack => nesting es (container.object :: stack)
  | .begin_object_length _ _ _ :: es, stack => nesting es (container.object :: stack)
  | .begin_array _ _ :: es, stack => nesting es (container.array :: stack)
  | .begin_array_length _ _ _ :: es, stack => nesting es (container.array :: stack)
  | .end_object _ :: es, stack =>
    match stack with
    | container.object :: rest => nesting es rest
    | _ => none
  | .end_array _ :: es, stack =>
    match stack with
    | container.array :: rest => nesting es rest
    | _ => none
  | .key _ _ :: es, stack => nesting es stack
  | .null_value _ _ :: es, stack => nesting es stack
  | .bool_value _ _ _ :: es, stack => nesting es stack
  | .string_value _ _ _ :: es, stack => nesting es stack
  | .byte_string_value _ _ _ :: es, stack => nesting es stack
  | .uint64_value _ _ _ :: es, stack => nesting es stack
  | .int64_value _ _ _ :: es, stack => nesting es stack
  | .half_value _ _ _ :: es, stack => nesting es stack
  | .double_value _ _ _ :: es, stack => nesting es stack

/-- The event is a `begin_array`, counted or not. -/
def event.is_begin_array : event → Bool
  | .begin_array _ _ => true
  | .begin_array_length _ _ _ => true
  | _ => false

/-- The event is an `end_array`. -/
def event.is_end_array : event → Bool
  | .end_array _ => true
  | _ => false

/-- The event opens or closes no container. -/
def event.is_leaf : event → Bool
  | .begin_object _ _ => false
  | .begin_object_length _ _ _ => false
  | .end_object _ => false
  | .begin_array _ _ => false
  | .begin_array_length _ _ _ => false
  | .end_array _ => false
  | _ => true

/-! ## Integer spans -/

/-- The elements of the span are values of its element type: below `2 ^ w` for
an unsigned type of `w` bits, from `- 2 ^ (w - 1)` to `2 ^ (w - 1) - 1` for a
signed type of `w` bits, a bit pattern of the width of the type for the
floating point types. -/
def basic_json_visitor.typed_span.in_range : typed_span → Bool
  | .uint8 s => s.all (fun x => decide (x < 2 ^ 8))
  | .uint16 s => s.all (fun x => decide (x < 2 ^ 16))
  | .uint32 s => s.all (fun x => decide (x < 2 ^ 32))
  | .uint64 s => s.all (fun x => decide (x < 2 ^ 64))
  | .int8 s => s.all (fun x => decide (-2 ^ 7 ≤ x ∧ x < 2 ^ 7))
  | .int16 s => s.all (fun x => decide (-2 ^ 15 ≤ x ∧ x < 2 ^ 15))
  | .int32 s => s.all (fun x => decide (-2 ^ 31 ≤ x ∧ x < 2 ^ 31))
  | .int64 s => s.all (fun x => decide (-2 ^ 63 ≤ x ∧ x < 2 ^ 63))
  | .half s => s.all (fun x => decide (x < 2 ^ 16))
  | .float s => s.all (fun x => decide (x < 2 ^ 32))
  | .double s => s.all (fun x => decide (x < 2 ^ 64))

/-- The span has an integer element type. -/
def basic_json_visitor.typed_span.is_integer : typed_span → Bool
  | .uint8 _ | .uint16 _ | .uint32 _ | .uint64 _ => true
  | .int8 _ | .int16 _ | .int32 _ | .int64 _ => true
  | .half _ | .float _ | .double _ => false

/-- The events that carry the elements of an integer span as they are: the
`uint64_value` of each element of an unsigned span, the `int64_value` of each
element of a signed span, with tag none and the given context (no event for a
span of another element type). -/
def exact_integer_events (context : ser_context) : typed_span → List event
  | .uint8 s | .uint16 s | .uint32 s | .uint64 s =>
    s.map (fun x => event.uint64_value x semantic_tag.none context)
  | .int8 s | .int16 s | .int32 s | .int64 s =>
    s.map (fun x => event.int64_value x semantic_tag.none context)
  | .half _ | .float _ | .double _ => []

/-! ## Deprecated `byte_string_value` overloads (lines 443-487) -/

/-- Modelled from the spec: the enumeration `byte_string_chars_format` is
declared in a header that is not among the sources.  The constructors are the
three formats that the `switch` of the deprecated overloads names, and `none`
for a hint that reaches its `default` branch. -/
inductive byte_string_chars_format where
  | none
  | base16
  | base64
  | base64url
  deriving DecidableEq, Repr

/-- The deprecated overload
`byte_string_value(b, encoding_hint, tag, context)` (lines 443-464): the
`switch` assigns the tag for three hints, then the call goes to the throwing
form `byte_string_value(b, tag, context)`. -/
def basic_json_visitor.byte_string_value_hint {σ : Type} (v : visitor_impl σ) (b : List Nat)
    (encoding_hint : byte_string_chars_format) (tag : semantic_tag) (context : ser_context)
    (st : σ) : thrown × σ :=
  let tag1 :=
    match encoding_hint with
    | byte_string_chars_format.base16 => semantic_tag.base16
    | byte_string_chars_format.base64 => semantic_tag.base64
    | byte_string_chars_format.base64url => semantic_tag.base64url
    | _ => tag
  byte_string_value v b tag1 context st

/-- The overload `byte_string_value(p, size, tag, context)` (lines 177-182):
the bytes `byte_string(p, size)` go to the overload that takes a view. -/
def basic_json_visitor.byte_string_value_pointer {σ : Type} (v : visitor_impl σ)
    (bytes : List Nat) (tag : semantic_tag) (context : ser_context) (st : σ) : thrown × σ :=
  byte_string_value v bytes tag context st

/-- The deprecated overload
`byte_string_value(p, size, encoding_hint, tag, context)` (lines 466-487), on
the bytes `byte_string(p, size)`. -/
def basic_json_visitor.byte_string_value_pointer_hint {σ : Type} (v : visitor_impl σ)
    (bytes : List Nat) (encoding_hint : byte_string_chars_format) (tag : semantic_tag)
    (context : ser_context) (st : σ) : thrown × σ :=
  let tag1 :=
    match encoding_hint with
    | byte_string_chars_format.base16 => semantic_tag.base16
    | byte_string_chars_format.base64 => semantic_tag.base64
    | byte_string_chars_format.base64url => semantic_tag.base64url
    | _ => tag
  byte_string_value v bytes tag1 context st

/-! ## Sequences of operations -/

/-- One operation that a producer runs on a visitor: an error-code form
called with some content of the error slot, a throwing form, or `flush`. -/
inductive operation where
  | error_code_form (c : call) (ec : error_code)
  | throwing_form (c : call)
  | flush
  deriving DecidableEq, Repr

/-- The state of the visitor after the operation. -/
def operation.run {σ : Type} (cv : fp_conversions) (v : visitor_impl σ) : operation → σ → σ
  | .error_code_form c ec, st => (c.run_ec cv v ec st).st
  | .throwing_form c, st => (c.run_throwing cv v st).2
  | .flush, st => basic_json_visitor.flush v st

/-- The state of the visitor after the operations, run one after the other. -/
def state_after {σ : Type} (cv : fp_conversions) (v : visitor_impl σ) (ops : List operation)
    (st : σ) : σ :=
  ops.foldl (fun s o => o.run cv v s) st

/-! ## The typed decode entry point of `decode_bson.hpp` -/

namespace bson

/-- What `deser_traits<T,char>::deserialize(cursor, decoder, ec)` leaves: the
value it returns, the error slot and the cursor after the call. -/
structure deserialized (T Cursor : Type) where
  val : T
  ec : error_code
  cursor : Cursor

/-- The collaborators of the typed `decode_bson` overloads, none of which is
declared among the sources: the construction of the cursor `basic_bson_cursor`
over the byte source (a vector or a stream, with the temporary allocator when
there is one) and the options, the construction of the `json_decoder`, the
type-directed `deser_traits<T,char>::deserialize`, and `cursor.context()`. -/
structure typed_decoding (Source Options Cursor Decoder T : Type) where
  make_cursor : Source → Options → Cursor
  make_decoder : Decoder
  deserialize : Cursor → Decoder → error_code → deserialized T Cursor
  context : Cursor → ser_context

/-- The overloads of `decode_bson` for a type that is not a `basic_json`
(lines 35-50, 64-79, 98-112 and 128-144, which differ in the byte source and
the allocator only): the cursor and the decoder are constructed, the value is
deserialized with a fresh error slot, and a non-zero code is thrown as
`ser_error(ec, cursor.context().line(), cursor.context().column())`. -/
def decode_bson {Source Options Cursor Decoder T : Type}
    (env : typed_decoding Source Options Cursor Decoder T) (v : Source) (options : Options) :
    Except ser_error T :=
  let cursor := env.make_cursor v options
  let decoder := env.make_decoder
  let r := env.deserialize cursor decoder error_code.empty
  if r.ec.is_set then
    Except.error ⟨r.ec, (env.context r.cursor).line, (env.context r.cursor).column⟩
  else Except.ok r.val

end bson

/-! ## Lemmas on the loop and on emission -/

section lemmas

variable {α β σ : Type}

theorem for_while_stopped (body : α → Bool → op σ) (s : List α) (r : outcome σ)
    (h : r.more = false) : for_while body s r = r := by
  cases s <;> simp [for_while, h]

theorem for_while_append (body : α → Bool → op σ) (s t : List α) (r : outcome σ) :
    for_while body (s ++ t) r = for_while body t (for_while body s r) := by
  induction s generalizing r with
  | nil => rfl
  | cons p ps ih =>
    by_cases h : r.more = true
    · simp [for_while, h, ih]
    · have h0 : r.more = false := by simpa using h
      simp [for_while, h0, for_while_stopped]

theorem for_while_map (g : α → β) (body : β → Bool → op σ) (s : List α) (r : outcome σ) :
    for_while (fun p m => body (g p) m) s r = for_while body (s.map g) r := by
  induction s generalizing r with
  | nil => rfl
  | cons p ps ih => simp [for_while, ih]

theorem emit_all_eq_emit_seq (cv : fp_conversions) (v : visitor_impl σ) (evs : List event)
    (ec : error_code) (st : σ) : emit_all cv v evs ec st = emit_seq cv v evs ⟨true, ec, st⟩ :=
  rfl

/-- When every call of the list returns continue, emission with cancellation
makes all the calls. -/
theorem emit_while_eq_emit_seq (cv : fp_conversions) (v : visitor_impl σ) (evs : List event)
    (h : ∀ e ∈ evs, ∀ ec st, (emit cv v e ec st).more = true) (r : outcome σ)
    (hr : r.more = true) : emit_while cv v evs r = emit_seq cv v evs r := by
  induction evs generalizing r with
  | nil => rfl
  | cons e es ih =>
    have he := h e (List.mem_cons_self e es) r.ec r.st
    have hes : ∀ x ∈ es, ∀ ec st, (emit cv v x ec st).more = true :=
      fun x hx => h x (List.mem_cons_of_mem e hx)
    simpa [emit_while, emit_seq, for_while, hr] using ih hes _ he

/-- When the call number `n + 1` is the first one that returns stop, emission
with cancellation makes the first `n + 1` calls and no other. -/
theorem emit_while_stops (cv : fp_conversions) (v : visitor_impl σ) (evs : List event) (n : Nat)
    (r : outcome σ) (hr : r.more = true) (hn : n < evs.length)
    (h : answers cv v (evs.take (n + 1)) r.ec r.st = List.replicate n true ++ [false]) :
    emit_while cv v evs r = emit_seq cv v (evs.take (n + 1)) r
      ∧ (emit_seq cv v (evs.take (n + 1)) r).more = false := by
  induction evs generalizing n r with
  | nil => simp at hn
  | cons e es ih =>
    cases n with
    | zero =>
      have h0 : (emit cv v e r.ec r.st).more = false := by simpa [answers] using h
      simp [emit_while, emit_seq, for_while, hr, h0, for_while_stopped]
    | succ n =>
      have hn1 : n < es.length := by simpa using hn
      simp only [List.take_succ_cons, answers, List.replicate_succ, List.cons_append,
        List.cons.injEq] at h
      have := ih n (emit cv v e r.ec r.st) h.1 hn1 h.2
      simpa [emit_while, emit_seq, for_while, hr] using this

/-- The default typed array decomposition is the emission with cancellation of
its event sequence. -/
theorem visit_typed_array_eq_emit_while (cv : fp_conversions) (v : visitor_impl σ)
    (data : typed_span) (tag : semantic_tag) (context : ser_context) (ec : error_code)
    (st : σ) :
    visit_typed_array cv v data tag context ec st
      = emit_while cv v (typed_array_events cv data tag context) ⟨true, ec, st⟩ := by
  cases data <;>
    simp only [visit_typed_array, visit_typed_array_uint8, visit_typed_array_uint16,
      visit_typed_array_uint32, visit_typed_array_uint64, visit_typed_array_int8,
      visit_typed_array_int16, visit_typed_array_int32, visit_typed_array_int64,
      visit_typed_array_half, visit_typed_array_float, visit_typed_array_double,
      typed_array_events, element_events, typed_span.size, emit_while, for_while,
      for_while_append, if_true, ← for_while_map, emit]

end lemmas

section primitive_only_visitors

variable {σ : Type}

theorem primitive_only_fields (v : visitor_impl σ) (h : v.primitive_only = true) :
    v.visit_begin_object_length = none ∧ v.visit_begin_array_length = none
      ∧ v.visit_half = none ∧ (∀ data, typed_array_override v data = none)
      ∧ v.visit_begin_multi_dim = none ∧ v.visit_end_multi_dim = none := by
  simp only [visitor_impl.primitive_only, Bool.and_eq_true, Option.isNone_iff_eq_none] at h
  obtain ⟨⟨⟨⟨⟨⟨⟨⟨⟨⟨⟨⟨⟨⟨⟨h1, h2⟩, h3⟩, h4⟩, h5⟩, h6⟩, h7⟩, h8⟩, h9⟩, h10⟩, h11⟩, h12⟩, h13⟩,
    h14⟩, h15⟩, h16⟩ := h
  refine ⟨h1, h2, h3, ?_, h15, h16⟩
  intro data
  cases data <;> simp [typed_array_override, *]

/-- On a primitive-only visitor whose primitive operations return continue,
every scalar or container call returns continue. -/
theorem emit_continues (cv : fp_conversions) (v : visitor_impl σ)
    (hprim : v.primitive_only = true) (hcont : primitives_continue v) (e : event)
    (ec : error_code) (st : σ) : (emit cv v e ec st).more = true := by
  obtain ⟨h1, h2, h3, -, -, -⟩ := primitive_only_fields v hprim
  cases e <;>
    simp [emit, begin_object_ec, begin_object_length_ec, end_object_ec, begin_array_ec,
      begin_array_length_ec, end_array_ec, key_ec, null_value_ec, bool_value_ec,
      string_value_ec, byte_string_value_ec, uint64_value_ec, int64_value_ec, half_value_ec,
      double_value_ec, vcall_begin_object_length, vcall_begin_array_length, vcall_half,
      visit_begin_object_length, visit_begin_array_length, visit_half, h1, h2, h3,
      hcont.begin_object, hcont.end_object, hcont.begin_array, hcont.end_array, hcont.key,
      hcont.null, hcont.bool, hcont.string, hcont.byte_string, hcont.uint64, hcont.int64,
      hcont.double]

end primitive_only_visitors

/-! ## Typed arrays -/

section continue_lemmas

variable {σ : Type}

/-- When the visitor returns continue to every call of a first part of the
sequence, emission with cancellation makes all these calls and goes on with
the rest. -/
theorem emit_while_of_answers (cv : fp_conversions) (v : visitor_impl σ)
    (evs rest : List event) (r : outcome σ) (hr : r.more = true)
    (h : answers cv v evs r.ec r.st = List.replicate evs.length true) :
    emit_while cv v (evs ++ rest) r = emit_while cv v rest (emit_seq cv v evs r)
      ∧ (emit_seq cv v evs r).more = true := by
  induction evs generalizing r with
  | nil => exact ⟨rfl, hr⟩
  | cons e es ih =>
    simp only [answers, List.length_cons, List.replicate_succ, List.cons.injEq] at h
    have := ih (emit cv v e r.ec r.st) h.1 h.2
    simpa [emit_while, emit_seq, for_while, hr] using this

/-- A visitor that returns continue to every call, in every state, returns
continue to every call of any manual emission. -/
theorem answers_of_always_continues (cv : fp_conversions) (v : visitor_impl σ)
    (hv : always_continues cv v) (evs : List event) (ec : error_code) (st : σ) :
    answers cv v evs ec st = List.replicate evs.length true := by
  induction evs generalizing ec st with
  | nil => rfl
  | cons e es ih => simp [answers, List.replicate_succ, hv e ec st, ih]

end continue_lemmas

/-- Claim C1. For every visitor, a span of any numeric element type and length
`N`, every tag, context, error slot and state: if the visitor returns continue
to `begin_array(N, tag, context)` and to every element event of the run, as
every visitor whose operations all return continue does, then the default
`typed_array` decomposition has exactly the outcome (continuation signal,
error slot, visitor state) of the manual emission of
`begin_array(N, tag, context)`, then one scalar event per element in span order
(unsigned to `uint64_value`, signed to `int64_value`, half to `half_value`,
float and double to `double_value`) with tag none and the same context, then
`end_array(context)`; the outcome of a manual emission is that of its last
call, so the decomposition returns what `end_array` returned. -/
theorem typed_array_emits_all {σ : Type} (cv : fp_conversions) (v : visitor_impl σ)
    (data : typed_span) (tag : semantic_tag) (context : ser_context) (ec : error_code)
    (st : σ)
    (h : answers cv v
        (event.begin_array_length data.size tag context :: element_events cv context data)
        ec st
      = List.replicate (data.size + 1) true) :
    visit_typed_array cv v data tag context ec st
      = emit_all cv v
          (event.begin_array_length data.size tag context
            :: (element_events cv context data ++ [event.end_array context])) ec st := by
  have hlen : (event.begin_array_length data.size tag context
      :: element_events cv context data).length = data.size + 1 := by
    cases data <;> simp [element_events, typed_span.size]
  have hsplit : event.begin_array_length data.size tag context
      :: (element_events cv context data ++ [event.end_array context])
      = (event.begin_array_length data.size tag context :: element_events cv context data)
          ++ [event.end_array context] := rfl
  obtain ⟨hrun, hmore⟩ := emit_while_of_answers cv v
    (event.begin_array_length data.size tag context :: element_events cv context data)
    [event.end_array context] ⟨true, ec, st⟩ rfl (by rw [hlen]; exact h)
  rw [visit_typed_array_eq_emit_while, typed_array_events, hsplit, hrun, emit_all_eq_emit_seq]
  simp only [emit_seq, List.foldl_append, List.foldl_cons, List.foldl_nil] at hmore ⊢
  simp only [emit_while, for_while, hmore, if_true]

/-- Witness for claim C1: the recording visitor that always continues, whose
log keeps the length, on the `int8` span `[-1, 8]`, and the sink constructed
with `accept_more = true` on the half-precision span `[0x3C00]`. -/
theorem typed_array_emits_all_witness :
    (visit_typed_array ieee (full_recording_visitor always_continue)
        (typed_span.int8 [-1, 8]) semantic_tag.bigint ⟨1, 1⟩ error_code.empty []).st
        = [event.begin_array_length 2 semantic_tag.bigint ⟨1, 1⟩,
            event.int64_value (-1) semantic_tag.none ⟨1, 1⟩,
            event.int64_value 8 semantic_tag.none ⟨1, 1⟩,
            event.end_array ⟨1, 1⟩]
      ∧ visit_typed_array ieee basic_default_json_visitor.impl (typed_span.half [15360])
          semantic_tag.none ⟨1, 1⟩ error_code.empty
          (basic_default_json_visitor.make true error_code.empty)
        = emit_all ieee basic_default_json_visitor.impl
            [event.begin_array_length 1 semantic_tag.none ⟨1, 1⟩,
              event.half_value 15360 semantic_tag.none ⟨1, 1⟩,
              event.end_array ⟨1, 1⟩] error_code.empty
            (basic_default_json_visitor.make true error_code.empty) :=
  ⟨(typed_array_emits_all ieee (full_recording_visitor always_continue)
      (typed_span.int8 [-1, 8]) semantic_tag.bigint ⟨1, 1⟩ error_code.empty []
      (by decide)) ▸ by decide,
    typed_array_emits_all ieee basic_default_json_visitor.impl (typed_span.half [15360])
      semantic_tag.none ⟨1, 1⟩ error_code.empty
      (basic_default_json_visitor.make true error_code.empty) (by decide)⟩

/-- Claim C2. For a typed array of `N` elements and `1 ≤ k < N`: if, in the
run of the default decomposition, the visitor returns continue to
`begin_array` and to the first `k - 1` element events and stop to the `k`-th
element event, then the default decomposition has exactly the outcome of the
manual emission of `begin_array` followed by the first `k` element events (no
further element event, no `end_array`), and it returns stop. -/
theorem typed_array_stops_at_element {σ : Type} (cv : fp_conversions) (v : visitor_impl σ)
    (data : typed_span) (tag : semantic_tag) (context : ser_context) (ec : error_code)
    (st : σ) (k : Nat) (_hk1 : 1 ≤ k) (hk : k < data.size)
    (h : answers cv v
        (event.begin_array_length data.size tag context
          :: (element_events cv context data).take k) ec st
      = List.replicate k true ++ [false]) :
    visit_typed_array cv v data tag context ec st
        = emit_all cv v
            (event.begin_array_length data.size tag context
              :: (element_events cv context data).take k) ec st
      ∧ (visit_typed_array cv v data tag context ec st).more = false := by
  have hlen : (element_events cv context data).length = data.size := by
    cases data <;> simp [element_events, typed_span.size]
  have htake : (typed_array_events cv data tag context).take (k + 1)
      = event.begin_array_length data.size tag context
          :: (element_events cv context data).take k := by
    simp only [typed_array_events, List.take_succ_cons]
    rw [List.take_append_of_le_length (by omega)]
  have hn : k < (typed_array_events cv data tag context).length := by
    simp [typed_array_events, hlen]; omega
  have := emit_while_stops cv v (typed_array_events cv data tag context) k ⟨true, ec, st⟩ rfl hn
    (by rw [htake]; exact h)
  rw [htake] at this
  rw [visit_typed_array_eq_emit_while, emit_all_eq_emit_seq]
  exact ⟨this.1, this.1 ▸ this.2⟩

/-- Witness for claim C2: the recording visitor that stops at its third call,
on the `uint8` span `[7, 8, 9]` with `k = 2`; its log is `begin_array(3)`,
`uint64_value(7)`, `uint64_value(8)`. -/
theorem typed_array_stops_at_element_witness :
    answers ieee (full_recording_visitor (stop_at 3))
        [event.begin_array_length 3 semantic_tag.none ⟨1, 1⟩,
          event.uint64_value 7 semantic_tag.none ⟨1, 1⟩,
          event.uint64_value 8 semantic_tag.none ⟨1, 1⟩] error_code.empty []
        = [true, true, false]
      ∧ (visit_typed_array ieee (full_recording_visitor (stop_at 3))
          (typed_span.uint8 [7, 8, 9]) semantic_tag.none ⟨1, 1⟩ error_code.empty []).more = false
      ∧ (visit_typed_array ieee (full_recording_visitor (stop_at 3))
          (typed_span.uint8 [7, 8, 9]) semantic_tag.none ⟨1, 1⟩ error_code.empty []).st
        = [event.begin_array_length 3 semantic_tag.none ⟨1, 1⟩,
            event.uint64_value 7 semantic_tag.none ⟨1, 1⟩,
            event.uint64_value 8 semantic_tag.none ⟨1, 1⟩] :=
  have h := typed_array_stops_at_element ieee (full_recording_visitor (stop_at 3))
    (typed_span.uint8 [7, 8, 9]) semantic_tag.none ⟨1, 1⟩ error_code.empty [] 2
    (by decide) (by decide) (by decide)
  ⟨by decide, h.2, h.1 ▸ rfl⟩

/-- Counterexample to claim C3: a visitor that writes a non-zero error code
into the slot at every call and returns continue.  The `begin_array` call of
the default decomposition of the `uint8` span `[7, 8]` leaves a non-zero code
in the slot, and the visitor still receives both element events and
`end_array`. -/
theorem typed_array_goes_on_after_error :
    (emit ieee (full_recording_visitor (continue_with_error ⟨1, 0⟩))
        (event.begin_array_length 2 semantic_tag.none ⟨1, 1⟩) error_code.empty []).ec.is_set
        = true
      ∧ (visit_typed_array ieee (full_recording_visitor (continue_with_error ⟨1, 0⟩))
          (typed_span.uint8 [7, 8]) semantic_tag.none ⟨1, 1⟩ error_code.empty []).st
        = [event.begin_array_length 2 semantic_tag.none ⟨1, 1⟩,
            event.uint64_value 7 semantic_tag.none ⟨1, 1⟩,
            event.uint64_value 8 semantic_tag.none ⟨1, 1⟩,
            event.end_array ⟨1, 1⟩] := by
  decide

/-- Claim C3, amended. If a call made by the default typed array decomposition
(`begin_array` when `n = 0`, the `n`-th element event otherwise) is the first
one to return stop, then iteration halts at that call, whatever the call wrote
into the error slot: the decomposition has exactly the outcome of the manual
emission of the calls up to that one (no further element event, no
`end_array`), so it returns stop and the error slot is as that call left
it. -/
theorem typed_array_halts_on_stop {σ : Type} (cv : fp_conversions) (v : visitor_impl σ)
    (data : typed_span) (tag : semantic_tag) (context : ser_context) (ec : error_code)
    (st : σ) (n : Nat) (hn : n ≤ data.size)
    (h : answers cv v
        (event.begin_array_length data.size tag context
          :: (element_events cv context data).take n) ec st
      = List.replicate n true ++ [false]) :
    visit_typed_array cv v data tag context ec st
        = emit_all cv v
            (event.begin_array_length data.size tag context
              :: (element_events cv context data).take n) ec st
      ∧ (visit_typed_array cv v data tag context ec st).more = false
      ∧ (visit_typed_array cv v data tag context ec st).ec
        = (emit_all cv v
            (event.begin_array_length data.size tag context
              :: (element_events cv context data).take n) ec st).ec := by
  have hlen : (element_events cv context data).length = data.size := by
    cases data <;> simp [element_events, typed_span.size]
  have htake : (typed_array_events cv data tag context).take (n + 1)
      = event.begin_array_length data.size tag context
          :: (element_events cv context data).take n := by
    simp only [typed_array_events, List.take_succ_cons]
    rw [List.take_append_of_le_length (by omega)]
  have hlt : n < (typed_array_events cv data tag context).length := by
    simp [typed_array_events, hlen]; omega
  have := emit_while_stops cv v (typed_array_events cv data tag context) n ⟨true, ec, st⟩ rfl hlt
    (by rw [htake]; exact h)
  rw [htake] at this
  rw [visit_typed_array_eq_emit_while, emit_all_eq_emit_seq]
  exact ⟨this.1, this.1 ▸ this.2, by rw [this.1]⟩

/-- Witness for claim C3, amended: the sink constructed with
`accept_more = false` and the error code `(5, 1)`, on the `uint8` span
`[7, 8]`: `begin_array` returns stop and writes the code, and the
decomposition returns stop with that code in the slot. -/
theorem typed_array_halts_on_stop_witness :
    answers ieee basic_default_json_visitor.impl
        [event.begin_array_length 2 semantic_tag.none ⟨1, 1⟩] error_code.empty
        (basic_default_json_visitor.make false ⟨5, 1⟩) = [false]
      ∧ (visit_typed_array ieee basic_default_json_visitor.impl (typed_span.uint8 [7, 8])
          semantic_tag.none ⟨1, 1⟩ error_code.empty
          (basic_default_json_visitor.make false ⟨5, 1⟩)).more = false
      ∧ (visit_typed_array ieee basic_default_json_visitor.impl (typed_span.uint8 [7, 8])
          semantic_tag.none ⟨1, 1⟩ error_code.empty
          (basic_default_json_visitor.make false ⟨5, 1⟩)).ec = ⟨5, 1⟩ :=
  have h := typed_array_halts_on_stop ieee basic_default_json_visitor.impl
    (typed_span.uint8 [7, 8]) semantic_tag.none ⟨1, 1⟩ error_code.empty
    (basic_default_json_visitor.make false ⟨5, 1⟩) 0 (by decide) (by decide)
  ⟨by decide, h.2.1, h.2.2.trans (by decide)⟩

/-! ## Multi-dimensional arrays -/

section multi_dim_lemmas

variable {α σ : Type}

/-- A loop whose body discards the signal of its call makes every call, once
entered with continue. -/
theorem for_while_discard (g : α → op σ) (s : List α) (r x : outcome σ) (hr : r.more = true)
    (hec : r.ec = x.ec) (hst : r.st = x.st) :
    (for_while (fun d more ec st => ⟨more, (g d ec st).ec, (g d ec st).st⟩) s r).more = true
      ∧ (for_while (fun d more ec st => ⟨more, (g d ec st).ec, (g d ec st).st⟩) s r).ec
          = (s.foldl (fun a d => g d a.ec a.st) x).ec
      ∧ (for_while (fun d more ec st => ⟨more, (g d ec st).ec, (g d ec st).st⟩) s r).st
          = (s.foldl (fun a d => g d a.ec a.st) x).st := by
  induction s generalizing r x with
  | nil => exact ⟨hr, hec, hst⟩
  | cons p ps ih =>
    simp only [for_while, hr, if_true, List.foldl_cons]
    exact ih _ _ rfl (by rw [hec, hst]) (by rw [hec, hst])

/-- The default `begin_multi_dim` decomposition: the two `begin_array` calls
are made with cancellation; once the second returned continue, every
`uint64_value` call is made and then `end_array`. -/
theorem visit_begin_multi_dim_eq (cv : fp_conversions) (v : visitor_impl σ) (shape : List Nat)
    (tag : semantic_tag) (context : ser_context) (ec : error_code) (st : σ) :
    visit_begin_multi_dim v shape tag context ec st
      = if (emit cv v (event.begin_array_length 2 tag context) ec st).more then
          if (emit_all cv v [event.begin_array_length 2 tag context,
              event.begin_array_length shape.length tag context] ec st).more then
            emit_all cv v (multi_dim_events shape tag tag context) ec st
          else
            emit_all cv v [event.begin_array_length 2 tag context,
              event.begin_array_length shape.length tag context] ec st
        else emit cv v (event.begin_array_length 2 tag context) ec st := by
  have e0 : emit cv v (event.begin_array_length 2 tag context) ec st
      = vcall_begin_array_length v 2 tag context ec st := rfl
  have e1 : emit_all cv v [event.begin_array_length 2 tag context,
      event.begin_array_length shape.length tag context] ec st
      = vcall_begin_array_length v shape.length tag context
          (vcall_begin_array_length v 2 tag context ec st).ec
          (vcall_begin_array_length v 2 tag context ec st).st := rfl
  have e2 : emit_all cv v (multi_dim_events shape tag tag context) ec st
      = v.visit_end_array context
          (shape.foldl (fun a d => v.visit_uint64 (to_uint64 d) semantic_tag.none context a.ec a.st)
            (vcall_begin_array_length v shape.length tag context
              (vcall_begin_array_length v 2 tag context ec st).ec
              (vcall_begin_array_length v 2 tag context ec st).st)).ec
          (shape.foldl (fun a d => v.visit_uint64 (to_uint64 d) semantic_tag.none context a.ec a.st)
            (vcall_begin_array_length v shape.length tag context
              (vcall_begin_array_length v 2 tag context ec st).ec
              (vcall_begin_array_length v 2 tag context ec st).st)).st := by
    simp only [emit_all, multi_dim_events, List.foldl_cons, List.foldl_append, List.foldl_map,
      List.foldl_nil]
    rfl
  rw [e0, e1, e2]
  unfold visit_begin_multi_dim
  generalize vcall_begin_array_length v 2 tag context ec st = r0
  by_cases h0 : r0.more = true
  · simp only [h0, if_true]
    generalize vcall_begin_array_length v shape.length tag context r0.ec r0.st = r1
    by_cases h1 : r1.more = true
    · obtain ⟨hm, hec, hst⟩ := for_while_discard
        (fun d => v.visit_uint64 (to_uint64 d) semantic_tag.none context) shape r1 r1 h1 rfl rfl
      simp only [h1, if_true]
      rw [if_pos hm, hec, hst]
    · have h1f : r1.more = false := by simpa using h1
      rw [for_while_stopped _ _ _ h1f]
      simp [h1f]
  · have h0f : r0.more = false := by simpa using h0
    simp [h0f]

/-- The full recording visitor logs every scalar or container call as it
is. -/
theorem full_recording_emit (cv : fp_conversions) (policy : List event → event → reply)
    (e : event) (ec : error_code) (log : List event) :
    emit cv (full_recording_visitor policy) e ec log = record policy e ec log := by
  cases e <;> rfl

theorem full_recording_emit_seq_st (cv : fp_conversions) (policy : List event → event → reply)
    (evs : List event) (r : outcome (List event)) :
    (emit_seq cv (full_recording_visitor policy) evs r).st = r.st ++ evs := by
  induction evs generalizing r with
  | nil => simp [emit_seq]
  | cons e es ih =>
    have := ih (emit cv (full_recording_visitor policy) e r.ec r.st)
    simp only [emit_seq, List.foldl_cons] at this ⊢
    rw [this, full_recording_emit]
    simp [record]

theorem full_recording_always_continues (cv : fp_conversions) :
    always_continues cv (full_recording_visitor always_continue) := by
  intro e ec st
  rw [full_recording_emit]
  rfl

end multi_dim_lemmas

/-- Claim C4. For every visitor that returns continue to every call, every
shape `d_1 .. d_r` (zero-length dimensions included), tag, context, error slot
and state, the default `begin_multi_dim` has exactly the outcome of the manual
emission of `begin_array(2, tag)`, `begin_array(r, tag)`, one
`uint64_value(d_i)` with tag none per dimension in order, and `end_array`,
and of nothing else: the outer array is left open, and what is returned is
what that `end_array` returned. -/
theorem begin_multi_dim_emits_shape {σ : Type} (cv : fp_conversions) (v : visitor_impl σ)
    (hv : always_continues cv v) (shape : List Nat) (tag : semantic_tag)
    (context : ser_context) (ec : error_code) (st : σ) :
    visit_begin_multi_dim v shape tag context ec st
      = emit_all cv v
          (event.begin_array_length 2 tag context
            :: event.begin_array_length shape.length tag context
            :: (shape.map (fun d => event.uint64_value (to_uint64 d) semantic_tag.none context)
                ++ [event.end_array context])) ec st := by
  rw [visit_begin_multi_dim_eq cv, if_pos (hv _ _ _), if_pos]
  · rfl
  · simp only [emit_all, List.foldl_cons, List.foldl_nil]
    exact hv _ _ _

/-- Witness for claim C4: the recording visitor that always continues, on the
shape `[2, 0, 3]`. -/
theorem begin_multi_dim_emits_shape_witness :
    (visit_begin_multi_dim (full_recording_visitor always_continue) [2, 0, 3]
        semantic_tag.multi_dim_row_major ⟨1, 1⟩ error_code.empty []).st
      = [event.begin_array_length 2 semantic_tag.multi_dim_row_major ⟨1, 1⟩,
          event.begin_array_length 3 semantic_tag.multi_dim_row_major ⟨1, 1⟩,
          event.uint64_value 2 semantic_tag.none ⟨1, 1⟩,
          event.uint64_value 0 semantic_tag.none ⟨1, 1⟩,
          event.uint64_value 3 semantic_tag.none ⟨1, 1⟩,
          event.end_array ⟨1, 1⟩] :=
  (begin_multi_dim_emits_shape ieee (full_recording_visitor always_continue)
    (full_recording_always_continues ieee) [2, 0, 3] semantic_tag.multi_dim_row_major ⟨1, 1⟩
    error_code.empty []) ▸ rfl

/-- Claim C5, the code at the failing input. The visitor returns stop to
every `uint64_value` call; on the shape `[2, 3]` the default `begin_multi_dim`
still makes the call for the second dimension and the `end_array` call, and it
returns continue. -/
theorem begin_multi_dim_ignores_stop :
    (emit ieee (full_recording_visitor stop_on_uint64)
        (event.uint64_value 2 semantic_tag.none ⟨1, 1⟩) error_code.empty
        [event.begin_array_length 2 semantic_tag.multi_dim_row_major ⟨1, 1⟩,
          event.begin_array_length 2 semantic_tag.multi_dim_row_major ⟨1, 1⟩]).more = false
      ∧ (visit_begin_multi_dim (full_recording_visitor stop_on_uint64) [2, 3]
          semantic_tag.multi_dim_row_major ⟨1, 1⟩ error_code.empty []).st
        = [event.begin_array_length 2 semantic_tag.multi_dim_row_major ⟨1, 1⟩,
            event.begin_array_length 2 semantic_tag.multi_dim_row_major ⟨1, 1⟩,
            event.uint64_value 2 semantic_tag.none ⟨1, 1⟩,
            event.uint64_value 3 semantic_tag.none ⟨1, 1⟩,
            event.end_array ⟨1, 1⟩]
      ∧ (visit_begin_multi_dim (full_recording_visitor stop_on_uint64) [2, 3]
          semantic_tag.multi_dim_row_major ⟨1, 1⟩ error_code.empty []).more = true := by
  decide

/-- Counterexample to claim C6: with the tag `multi_dim_row_major` and the
shape `[2, 3]`, the second event that the recording visitor receives from the
default `begin_multi_dim` is `begin_array(2, multi_dim_row_major)`, not the
`begin_array(2)` with tag none of the manual sequence. -/
theorem multi_dim_inner_tag_counterexample :
    (visit_begin_multi_dim (full_recording_visitor always_continue) [2, 3]
        semantic_tag.multi_dim_row_major ⟨1, 1⟩ error_code.empty []).st
      ≠ [event.begin_array_length 2 semantic_tag.multi_dim_row_major ⟨1, 1⟩,
          event.begin_array_length 2 semantic_tag.none ⟨1, 1⟩,
          event.uint64_value 2 semantic_tag.none ⟨1, 1⟩,
          event.uint64_value 3 semantic_tag.none ⟨1, 1⟩,
          event.end_array ⟨1, 1⟩] := by
  decide

/-- Claim C6, amended. For every shape, tag and context, the sequence that the
always continuing recording visitor receives from the default
`begin_multi_dim(shape, tag)` is `begin_array(2, tag)`, `begin_array(rank, tag)`,
`uint64_value(d_1 .. d_r)`, `end_array`: the `begin_array` that opens the shape
array carries the tag of the caller, as the outer one does.  The sequence is
the manual one, whose shape array is opened with tag none, exactly when the
tag of the caller is none. -/
theorem begin_multi_dim_shape_array_tag (shape : List Nat) (tag : semantic_tag)
    (context : ser_context) (ec : error_code) (log : List event) :
    (visit_begin_multi_dim (full_recording_visitor always_continue) shape tag context ec
        log).st
        = log ++ multi_dim_events shape tag tag context
      ∧ ((visit_begin_multi_dim (full_recording_visitor always_continue) shape tag context ec
          log).st
          = log ++ multi_dim_events shape tag semantic_tag.none context
        ↔ tag = semantic_tag.none) := by
  have hst : (visit_begin_multi_dim (full_recording_visitor always_continue) shape tag context
      ec log).st = log ++ multi_dim_events shape tag tag context := by
    rw [visit_begin_multi_dim_eq ieee, if_pos (full_recording_always_continues ieee _ _ _),
      if_pos]
    · rw [emit_all_eq_emit_seq, full_recording_emit_seq_st]
    · simp only [emit_all, List.foldl_cons, List.foldl_nil]
      exact full_recording_always_continues ieee _ _ _
  refine ⟨hst, ?_⟩
  rw [hst]
  constructor
  · intro h
    have h2 := List.append_cancel_left h
    simp only [multi_dim_events, List.cons.injEq, event.begin_array_length.injEq] at h2
    exact h2.2.1.2.1
  · intro h
    rw [h]

/-! ## The two forms of an operation -/

section duality_lemmas

variable {σ : Type}

theorem throw_if_set_eq (context : ser_context) (r : outcome σ) :
    throw_if_set context r
      = (if r.ec.value ≠ 0 then thrown.raised ⟨r.ec, context.line, context.column⟩
          else thrown.returned r.more, r.st) := by
  by_cases h : r.ec.value = 0 <;> simp [throw_if_set, error_code.is_set, h]

/-- Every throwing form is the shared tail applied to the outcome of the
virtual call that the error-code form makes, started with an empty slot. -/
theorem run_throwing_eq (cv : fp_conversions) (v : visitor_impl σ) (c : call) (st : σ) :
    c.run_throwing cv v st = throw_if_set c.context (c.run_ec cv v error_code.empty st) := by
  cases c with
  | scalar e => cases e <;> rfl
  | typed_array data tag context => rfl
  | begin_multi_dim shape tag context => rfl
  | end_multi_dim context => rfl

end duality_lemmas

/-- Claim C7. For every operation that has both forms, every visitor, visitor
state and argument list: with `(more, ec, st1)` the outcome of the error-code
form started with an empty error slot, the throwing form leaves the visitor in
the same state `st1` (the visitor went through the same calls), raises a
`ser_error` exactly when `ec` is non-zero, the raised error holds `ec` and the
line and column of the context of the call, and it returns `more` when `ec` is
zero. -/
theorem throwing_form_agrees {σ : Type} (cv : fp_conversions) (v : visitor_impl σ) (c : call)
    (st : σ) :
    c.run_throwing cv v st
      = (if (c.run_ec cv v error_code.empty st).ec.value ≠ 0 then
            thrown.raised
              ⟨(c.run_ec cv v error_code.empty st).ec, c.context.line, c.context.column⟩
          else thrown.returned (c.run_ec cv v error_code.empty st).more,
        (c.run_ec cv v error_code.empty st).st) := by
  rw [run_throwing_eq, throw_if_set_eq]

/-! ## The sink -/

section sink_lemmas

open basic_default_json_visitor

theorem sink_visit_body_idem (ec : error_code) (st : basic_default_json_visitor) :
    visit_body (visit_body ec st).ec (visit_body ec st).st = visit_body ec st := by
  by_cases h : st.ec_.is_set = true <;> simp [visit_body, h]

theorem sink_emit (cv : fp_conversions) (e : event) (ec : error_code)
    (st : basic_default_json_visitor) : emit cv impl e ec st = visit_body ec st := by
  cases e <;> rfl

theorem sink_emit_while (cv : fp_conversions) (evs : List event) (ec : error_code)
    (st : basic_default_json_visitor) :
    emit_while cv impl evs (visit_body ec st) = visit_body ec st := by
  induction evs with
  | nil => rfl
  | cons e es ih =>
    by_cases h : (visit_body ec st).more = true
    · simp only [emit_while, for_while, h, if_true, sink_emit, sink_visit_body_idem]
      exact ih
    · simp [emit_while, for_while, h]

theorem sink_emit_seq (cv : fp_conversions) (evs : List event) (ec : error_code)
    (st : basic_default_json_visitor) :
    emit_seq cv impl evs (visit_body ec st) = visit_body ec st := by
  induction evs with
  | nil => rfl
  | cons e es ih =>
    show emit_seq cv impl es (emit cv impl e (visit_body ec st).ec (visit_body ec st).st) = _
    rw [sink_emit, sink_visit_body_idem]
    exact ih

theorem sink_emit_all_cons (cv : fp_conversions) (e : event) (es : List event)
    (ec : error_code) (st : basic_default_json_visitor) :
    emit_all cv impl (e :: es) ec st = visit_body ec st := by
  show emit_seq cv impl es (emit cv impl e ec st) = _
  rw [sink_emit]
  exact sink_emit_seq cv es ec st

/-- On the sink every operation, compound ones included, has the outcome of
the body that its overrides share. -/
theorem sink_run_ec (cv : fp_conversions) (c : call) (ec : error_code)
    (st : basic_default_json_visitor) : c.run_ec cv impl ec st = visit_body ec st := by
  cases c with
  | scalar e => exact sink_emit cv e ec st
  | typed_array data tag context =>
    have hnone : typed_array_override impl data = none := by cases data <;> rfl
    simp only [call.run_ec, typed_array_ec, vcall_typed_array, hnone]
    rw [visit_typed_array_eq_emit_while]
    simp only [typed_array_events, emit_while, for_while, if_true, sink_emit]
    exact sink_emit_while cv _ ec st
  | begin_multi_dim shape tag context =>
    have hbase : (call.begin_multi_dim shape tag context).run_ec cv impl ec st
        = visit_begin_multi_dim impl shape tag context ec st := rfl
    rw [hbase, visit_begin_multi_dim_eq cv, multi_dim_events, sink_emit_all_cons,
      sink_emit_all_cons, sink_emit]
    simp
  | end_multi_dim context => rfl

end sink_lemmas

/-- Claim C8. For the sink constructed with a non-zero error code `e` and
either continuation setting, and for any operation of the interface that has
both forms (scalar, container or compound, `typed_array`, `half_value`,
`begin_multi_dim` and `end_multi_dim` included) with any arguments: the
error-code form leaves exactly `e` in the error slot of the caller, whatever
the slot held, and the throwing form raises the error that holds `e` and the
line and column of the context of the call. -/
theorem sink_reports_injected_error (cv : fp_conversions) (accept_more : Bool)
    (e : error_code) (he : e.value ≠ 0) (c : call) (ec : error_code) :
    (c.run_ec cv basic_default_json_visitor.impl ec
        (basic_default_json_visitor.make accept_more e)).ec = e
      ∧ (c.run_throwing cv basic_default_json_visitor.impl
          (basic_default_json_visitor.make accept_more e)).1
        = thrown.raised ⟨e, c.context.line, c.context.column⟩ := by
  have hset : e.is_set = true := by simp [error_code.is_set, he]
  constructor
  · simp [sink_run_ec, basic_default_json_visitor.visit_body,
      basic_default_json_visitor.make, hset]
  · rw [run_throwing_eq, throw_if_set_eq]
    simp [sink_run_ec, basic_default_json_visitor.visit_body,
      basic_default_json_visitor.make, hset, he]

/-- Witness for claim C8: the error code `(5, 1)`, `begin_object` at line 1,
column 1 on the continuing sink, and a half-precision `typed_array` at line 10,
column 4 on the stopping sink. -/
theorem sink_reports_injected_error_witness :
    ((call.scalar (event.begin_object semantic_tag.none ⟨1, 1⟩)).run_throwing ieee
        basic_default_json_visitor.impl (basic_default_json_visitor.make true ⟨5, 1⟩)).1
        = thrown.raised ⟨⟨5, 1⟩, 1, 1⟩
      ∧ ((call.typed_array (typed_span.half [15360, 0]) semantic_tag.none ⟨10, 4⟩).run_throwing
          ieee basic_default_json_visitor.impl
          (basic_default_json_visitor.make false ⟨5, 1⟩)).1
        = thrown.raised ⟨⟨5, 1⟩, 10, 4⟩
      ∧ ((call.begin_multi_dim [2, 3] semantic_tag.multi_dim_row_major ⟨10, 4⟩).run_ec ieee
          basic_default_json_visitor.impl error_code.empty
          (basic_default_json_visitor.make true ⟨5, 1⟩)).ec = ⟨5, 1⟩ :=
  ⟨(sink_reports_injected_error ieee true ⟨5, 1⟩ (by decide)
      (call.scalar (event.begin_object semantic_tag.none ⟨1, 1⟩)) error_code.empty).2,
    (sink_reports_injected_error ieee false ⟨5, 1⟩ (by decide)
      (call.typed_array (typed_span.half [15360, 0]) semantic_tag.none ⟨10, 4⟩)
      error_code.empty).2,
    (sink_reports_injected_error ieee true ⟨5, 1⟩ (by decide)
      (call.begin_multi_dim [2, 3] semantic_tag.multi_dim_row_major ⟨10, 4⟩)
      error_code.empty).1⟩

/-- Claim C9. For the sink constructed with the continuation setting `b` and
any error code, every operation of the interface that returns a signal
(scalar, container or compound: `typed_array` of any element type and length,
`half_value`, `begin_multi_dim` of any shape, `end_multi_dim`, the counted
begin forms) returns `b` through its error-code form, whatever the error slot;
the throwing form returns `b` too unless the injected code is non-zero, in
which case it raises; and the sink constructed without arguments returns
continue. -/
theorem sink_returns_setting (cv : fp_conversions) (b : Bool) (e : error_code) (c : call)
    (ec : error_code) :
    (c.run_ec cv basic_default_json_visitor.impl ec (basic_default_json_visitor.make b e)).more
        = b
      ∧ (c.run_throwing cv basic_default_json_visitor.impl
          (basic_default_json_visitor.make b e)).1
        = (if e.value ≠ 0 then thrown.raised ⟨e, c.context.line, c.context.column⟩
            else thrown.returned b)
      ∧ (c.run_ec cv basic_default_json_visitor.impl ec
          basic_default_json_visitor.make_default).more = true
      ∧ (c.run_throwing cv basic_default_json_visitor.impl
          basic_default_json_visitor.make_default).1 = thrown.returned true := by
  refine ⟨?_, ?_, ?_, ?_⟩
  · simp [sink_run_ec, basic_default_json_visitor.visit_body, basic_default_json_visitor.make]
  · rw [run_throwing_eq, throw_if_set_eq]
    by_cases he : e.value = 0 <;>
      simp [sink_run_ec, basic_default_json_visitor.visit_body,
        basic_default_json_visitor.make, error_code.is_set, error_code.empty, he]
  · simp [sink_run_ec, basic_default_json_visitor.visit_body,
      basic_default_json_visitor.make, basic_default_json_visitor.make_default]
  · rw [run_throwing_eq, throw_if_set_eq]
    simp [sink_run_ec, basic_default_json_visitor.visit_body,
      basic_default_json_visitor.make, basic_default_json_visitor.make_default,
      error_code.is_set, error_code.empty]

/-! ## Half-precision values -/

/-- Claim C10. For every visitor that does not override `visit_half`, every
16-bit pattern, tag, context, error slot and state, `half_value` has exactly
the outcome of the one call of the `double` primitive `visit_double` with the
value `decode_half(value)`, the same tag and the same context: the same state,
the continuation signal of that call and the error code of that call in the
slot.  The throwing form of `half_value` is likewise the throwing form of
`double_value`. -/
theorem half_value_forwards_to_double {σ : Type} (cv : fp_conversions) (v : visitor_impl σ)
    (hv : v.visit_half = none) (value : Nat) (tag : semantic_tag) (context : ser_context)
    (ec : error_code) (st : σ) :
    half_value_ec cv v value tag context ec st
        = v.visit_double (cv.decode_half value) tag context ec st
      ∧ half_value cv v value tag context st
        = double_value v (cv.decode_half value) tag context st := by
  simp [half_value_ec, half_value, double_value, vcall_half, visit_half, hv]

/-- Witness for claim C10: the primitive-only recording visitor receives the
pattern `0x3C00` as the one event `double_value` of the bit pattern of `1.0`. -/
theorem half_value_forwards_to_double_witness :
    (recording_visitor always_continue).visit_half = none
      ∧ (half_value_ec ieee (recording_visitor always_continue) 15360 semantic_tag.none
          ⟨3, 7⟩ error_code.empty []).st
        = [event.double_value 4607182418800017408 semantic_tag.none ⟨3, 7⟩] :=
  ⟨rfl, (half_value_forwards_to_double ieee (recording_visitor always_continue) rfl 15360
    semantic_tag.none ⟨3, 7⟩ error_code.empty []).1 ▸ by decide⟩

/-- Claim C11. Through the default body of `visit_half`, with the decoding
modelled from the spec, the bit patterns `0x3C00`, `0x0000`, `0x7C00` and
`0x7E00` are forwarded with tag none as the `visit_double` call, with tag none
and the same context, error slot and state, whose value is respectively `1.0`,
`+0.0`, `+infinity` and a NaN. -/
theorem half_patterns_forwarded {σ : Type} (v : visitor_impl σ) (context : ser_context)
    (ec : error_code) (st : σ) :
    visit_half ieee v 0x3C00 semantic_tag.none context ec st
        = v.visit_double double_one semantic_tag.none context ec st
      ∧ visit_half ieee v 0x0000 semantic_tag.none context ec st
        = v.visit_double double_positive_zero semantic_tag.none context ec st
      ∧ visit_half ieee v 0x7C00 semantic_tag.none context ec st
        = v.visit_double double_positive_infinity semantic_tag.none context ec st
      ∧ visit_half ieee v 0x7E00 semantic_tag.none context ec st
        = v.visit_double (decode_half 0x7E00) semantic_tag.none context ec st
      ∧ double_is_nan (decode_half 0x7E00) = true := by
  have h1 : decode_half 0x3C00 = double_one := by decide
  have h2 : decode_half 0x0000 = double_positive_zero := by decide
  have h3 : decode_half 0x7C00 = double_positive_infinity := by decide
  refine ⟨?_, ?_, ?_, rfl, by decide⟩
  · simp only [visit_half, ieee, h1]
  · simp only [visit_half, ieee, h2]
  · simp only [visit_half, ieee, h3]

/-- Claim C12. For every visitor that does not override `visit_end_multi_dim`,
every state, error slot and context, `end_multi_dim(context)` has exactly the
outcome of `end_array(context)`, in the error-code form (the one call
`visit_end_array`, the same continuation signal, error code and resulting
state) and in the throwing form. -/
theorem end_multi_dim_is_end_array {σ : Type} (v : visitor_impl σ)
    (hv : v.visit_end_multi_dim = none) (context : ser_context) (ec : error_code) (st : σ) :
    end_multi_dim_ec v context ec st = v.visit_end_array context ec st
      ∧ end_multi_dim_ec v context ec st = end_array_ec v context ec st
      ∧ end_multi_dim v context st = end_array v context st := by
  simp [end_multi_dim_ec, end_multi_dim, end_array_ec, end_array, vcall_end_multi_dim,
    visit_end_multi_dim, hv]

/-- Witness for claim C12: the recording visitor that always continues has
the one event `end_array` in its log after `end_multi_dim`. -/
theorem end_multi_dim_is_end_array_witness :
    (full_recording_visitor always_continue).visit_end_multi_dim = none
      ∧ (end_multi_dim_ec (full_recording_visitor always_continue) ⟨2, 5⟩ error_code.empty
          []).st = [event.end_array ⟨2, 5⟩] :=
  ⟨rfl, (end_multi_dim_is_end_array (full_recording_visitor always_continue) rfl ⟨2, 5⟩
    error_code.empty []).1 ▸ rfl⟩

/-- Claim C13. For a visitor that always continues, the default
`begin_multi_dim` with the empty shape (rank 0) has exactly the outcome of the
manual emission of `begin_array(2, tag)`, `begin_array` of length 0 and
`end_array`: the shape array is empty, no `uint64_value` call is made. -/
theorem begin_multi_dim_rank_zero {σ : Type} (cv : fp_conversions) (v : visitor_impl σ)
    (hv : always_continues cv v) (tag : semantic_tag) (context : ser_context)
    (ec : error_code) (st : σ) :
    visit_begin_multi_dim v [] tag context ec st
      = emit_all cv v
          [event.begin_array_length 2 tag context, event.begin_array_length 0 tag context,
            event.end_array context] ec st := by
  rw [visit_begin_multi_dim_eq cv, if_pos (hv _ _ _), if_pos]
  · rfl
  · simp only [emit_all, List.foldl_cons, List.foldl_nil]
    exact hv _ _ _

/-- Witness for claim C13: the log of the recording visitor that always
continues. -/
theorem begin_multi_dim_rank_zero_witness :
    (visit_begin_multi_dim (full_recording_visitor always_continue) []
        semantic_tag.multi_dim_row_major ⟨1, 1⟩ error_code.empty []).st
      = [event.begin_array_length 2 semantic_tag.multi_dim_row_major ⟨1, 1⟩,
          event.begin_array_length 0 semantic_tag.multi_dim_row_major ⟨1, 1⟩,
          event.end_array ⟨1, 1⟩] :=
  (begin_multi_dim_rank_zero ieee (full_recording_visitor always_continue)
    (full_recording_always_continues ieee) semantic_tag.multi_dim_row_major ⟨1, 1⟩
    error_code.empty []) ▸ rfl

/-! ## Cancellation and the error slot -/

section slot_lemmas

variable {σ : Type}

/-- On a primitive-only visitor whose primitive operations leave the error
slot alone, every scalar or container call leaves the error slot alone. -/
theorem emit_keeps_slot (cv : fp_conversions) (v : visitor_impl σ)
    (hprim : v.primitive_only = true) (hkeep : primitives_keep_slot v) (e : event)
    (ec : error_code) (st : σ) : (emit cv v e ec st).ec = ec := by
  obtain ⟨h1, h2, h3, -, -, -⟩ := primitive_only_fields v hprim
  cases e <;>
    simp [emit, begin_object_ec, begin_object_length_ec, end_object_ec, begin_array_ec,
      begin_array_length_ec, end_array_ec, key_ec, null_value_ec, bool_value_ec,
      string_value_ec, byte_string_value_ec, uint64_value_ec, int64_value_ec, half_value_ec,
      double_value_ec, vcall_begin_object_length, vcall_begin_array_length, vcall_half,
      visit_begin_object_length, visit_begin_array_length, visit_half, h1, h2, h3,
      hkeep.begin_object, hkeep.end_object, hkeep.begin_array, hkeep.end_array, hkeep.key,
      hkeep.null, hkeep.bool, hkeep.string, hkeep.byte_string, hkeep.uint64, hkeep.int64,
      hkeep.double]

theorem emit_while_keeps_slot (cv : fp_conversions) (v : visitor_impl σ)
    (h : ∀ e ec st, (emit cv v e ec st).ec = ec) (evs : List event) (r : outcome σ) :
    (emit_while cv v evs r).ec = r.ec := by
  induction evs generalizing r with
  | nil => rfl
  | cons e es ih =>
    by_cases hr : r.more = true
    · have := ih (emit cv v e r.ec r.st)
      simp only [emit_while, for_while, hr, if_true] at this ⊢
      rw [this, h]
    · simp [emit_while, for_while, hr]

theorem emit_seq_keeps_slot (cv : fp_conversions) (v : visitor_impl σ)
    (h : ∀ e ec st, (emit cv v e ec st).ec = ec) (evs : List event) (r : outcome σ) :
    (emit_seq cv v evs r).ec = r.ec := by
  induction evs generalizing r with
  | nil => rfl
  | cons e es ih =>
    have := ih (emit cv v e r.ec r.st)
    simp only [emit_seq, List.foldl_cons] at this ⊢
    rw [this, h]

theorem visit_typed_array_keeps_slot (cv : fp_conversions) (v : visitor_impl σ)
    (h : ∀ e ec st, (emit cv v e ec st).ec = ec) (data : typed_span) (tag : semantic_tag)
    (context : ser_context) (ec : error_code) (st : σ) :
    (visit_typed_array cv v data tag context ec st).ec = ec := by
  rw [visit_typed_array_eq_emit_while, emit_while_keeps_slot cv v h]

theorem visit_begin_multi_dim_keeps_slot (cv : fp_conversions) (v : visitor_impl σ)
    (h : ∀ e ec st, (emit cv v e ec st).ec = ec) (shape : List Nat) (tag : semantic_tag)
    (context : ser_context) (ec : error_code) (st : σ) :
    (visit_begin_multi_dim v shape tag context ec st).ec = ec := by
  rw [visit_begin_multi_dim_eq cv]
  split
  · split
    · rw [emit_all_eq_emit_seq, emit_seq_keeps_slot cv v h]
    · rw [emit_all_eq_emit_seq, emit_seq_keeps_slot cv v h]
  · exact h _ _ _

end slot_lemmas

/-- On a primitive-only visitor whose primitive operations never write the
error slot, whatever continue or stop answers it gives, the default
`typed_array` and `begin_multi_dim` decompositions return with the error slot
as they found it, so an empty slot is still empty; and the throwing forms of
`typed_array` and `begin_multi_dim` raise nothing: they return the
continuation signal that the decomposition returned. -/
theorem cancellation_leaves_slot_empty {σ : Type} (cv : fp_conversions) (v : visitor_impl σ)
    (hprim : v.primitive_only = true) (hkeep : primitives_keep_slot v) (data : typed_span)
    (shape : List Nat) (tag : semantic_tag) (context : ser_context) (ec : error_code)
    (st : σ) :
    (typed_array_ec cv v data tag context ec st).ec = ec
      ∧ (begin_multi_dim_ec v shape tag context ec st).ec = ec
      ∧ (typed_array_ec cv v data tag context error_code.empty st).ec = error_code.empty
      ∧ (begin_multi_dim_ec v shape tag context error_code.empty st).ec = error_code.empty
      ∧ (typed_array cv v data tag context st).1
        = thrown.returned (typed_array_ec cv v data tag context error_code.empty st).more
      ∧ (begin_multi_dim v shape tag context st).1
        = thrown.returned (begin_multi_dim_ec v shape tag context error_code.empty st).more := by
  obtain ⟨-, -, -, hta, hmd, -⟩ := primitive_only_fields v hprim
  have hemit := emit_keeps_slot cv v hprim hkeep
  have h1 : ∀ ec0, (typed_array_ec cv v data tag context ec0 st).ec = ec0 := by
    intro ec0
    simp only [typed_array_ec, vcall_typed_array, hta data]
    exact visit_typed_array_keeps_slot cv v hemit data tag context ec0 st
  have h2 : ∀ ec0, (begin_multi_dim_ec v shape tag context ec0 st).ec = ec0 := by
    intro ec0
    simp only [begin_multi_dim_ec, vcall_begin_multi_dim, hmd]
    exact visit_begin_multi_dim_keeps_slot cv v hemit shape tag context ec0 st
  refine ⟨h1 ec, h2 ec, h1 _, h2 _, ?_, ?_⟩
  · have := run_throwing_eq cv v (call.typed_array data tag context) st
    simp only [call.run_throwing, call.run_ec, call.context] at this
    rw [this, throw_if_set_eq, h1]
    simp [error_code.empty]
  · have := run_throwing_eq cv v (call.begin_multi_dim shape tag context) st
    simp only [call.run_throwing, call.run_ec, call.context] at this
    rw [this, throw_if_set_eq, h2]
    simp [error_code.empty]

/-- Claim C14, the code at the failing input. The primitive-only recording
visitor never writes the error slot and returns stop to every `uint64_value`
call.  On the shape `[2, 3]` the default `begin_multi_dim` leaves the error slot
empty and its throwing form raises nothing, but the stop answered to the event
of the first dimension is dropped: the visitor still receives
`uint64_value(3)` and `end_array`, and the throwing form returns continue, not
stop. -/
theorem throwing_begin_multi_dim_drops_stop :
    (emit ieee (recording_visitor stop_on_uint64)
        (event.uint64_value 2 semantic_tag.none ⟨1, 1⟩) error_code.empty
        [event.begin_array semantic_tag.multi_dim_row_major ⟨1, 1⟩,
          event.begin_array semantic_tag.multi_dim_row_major ⟨1, 1⟩]).more = false
      ∧ (begin_multi_dim_ec (recording_visitor stop_on_uint64) [2, 3]
          semantic_tag.multi_dim_row_major ⟨1, 1⟩ error_code.empty []).ec = error_code.empty
      ∧ begin_multi_dim (recording_visitor stop_on_uint64) [2, 3]
          semantic_tag.multi_dim_row_major ⟨1, 1⟩ []
        = (thrown.returned true,
            [event.begin_array semantic_tag.multi_dim_row_major ⟨1, 1⟩,
              event.begin_array semantic_tag.multi_dim_row_major ⟨1, 1⟩,
              event.uint64_value 2 semantic_tag.none ⟨1, 1⟩,
              event.uint64_value 3 semantic_tag.none ⟨1, 1⟩,
              event.end_array ⟨1, 1⟩]) := by
  decide

/-! ## Default arguments -/

/-- Counterexample to claim C15: the throwing form of `begin_multi_dim` called
without a tag passes `multi_dim_row_major`, not none: that is the tag of the
`begin_array` events that the recording visitor receives. -/
theorem begin_multi_dim_default_tag_not_none :
    (tagged_operation.begin_multi_dim [2, 3]).default_tag ≠ semantic_tag.none
      ∧ (((tagged_operation.begin_multi_dim [2, 3]).call_with trailing_args.omitted).run_throwing
          ieee (full_recording_visitor always_continue) []).2
        = [event.begin_array_length 2 semantic_tag.multi_dim_row_major ⟨0, 0⟩,
            event.begin_array_length 2 semantic_tag.multi_dim_row_major ⟨0, 0⟩,
            event.uint64_value 2 semantic_tag.none ⟨0, 0⟩,
            event.uint64_value 3 semantic_tag.none ⟨0, 0⟩,
            event.end_array ⟨0, 0⟩] := by
  decide

/-- Claim C15, amended. For every operation of the public interface that
accepts a semantic tag, every visitor and state, the throwing form called
without a tag is the throwing form called with the tag none and the default
context, except for `begin_multi_dim`, whose throwing form called without a
tag is the one called with the tag `multi_dim_row_major`. -/
theorem omitted_tag_is_default {σ : Type} (cv : fp_conversions) (v : visitor_impl σ)
    (o : tagged_operation) (st : σ) :
    (o.call_with trailing_args.omitted).run_throwing cv v st
      = (o.to_call
          (match o with
            | .begin_multi_dim _ => semantic_tag.multi_dim_row_major
            | _ => semantic_tag.none)
          ser_context.unknown).run_throwing cv v st := by
  cases o <;> rfl

/-! ## The sink and the default decompositions -/

/-- Claim C16. For every configuration of the sink, every bit pattern, tag,
context and error slot, `half_value` on the sink has exactly the outcome
(continuation signal, error slot, state) of the default body of `visit_half`
run on the sink, that is of `double_value(decode_half(value), tag, context)`
on the same sink; and `typed_array`, `begin_multi_dim` and `end_multi_dim` on
the sink are the default decompositions, which the sink does not override. -/
theorem sink_half_as_default (cv : fp_conversions) (b : Bool) (e : error_code) (value : Nat)
    (data : typed_span) (shape : List Nat) (tag : semantic_tag) (context : ser_context)
    (ec : error_code) :
    half_value_ec cv basic_default_json_visitor.impl value tag context ec
        (basic_default_json_visitor.make b e)
        = visit_half cv basic_default_json_visitor.impl value tag context ec
            (basic_default_json_visitor.make b e)
      ∧ half_value_ec cv basic_default_json_visitor.impl value tag context ec
          (basic_default_json_visitor.make b e)
        = double_value_ec basic_default_json_visitor.impl (cv.decode_half value) tag context ec
            (basic_default_json_visitor.make b e)
      ∧ typed_array_ec cv basic_default_json_visitor.impl data tag context ec
          (basic_default_json_visitor.make b e)
        = visit_typed_array cv basic_default_json_visitor.impl data tag context ec
            (basic_default_json_visitor.make b e)
      ∧ begin_multi_dim_ec basic_default_json_visitor.impl shape tag context ec
          (basic_default_json_visitor.make b e)
        = visit_begin_multi_dim basic_default_json_visitor.impl shape tag context ec
            (basic_default_json_visitor.make b e)
      ∧ end_multi_dim_ec basic_default_json_visitor.impl context ec
          (basic_default_json_visitor.make b e)
        = visit_end_multi_dim basic_default_json_visitor.impl context ec
            (basic_default_json_visitor.make b e) := by
  refine ⟨rfl, rfl, ?_, rfl, rfl⟩
  cases data <;> rfl

/-- Claim C17. On the sink `flush` leaves the state (continuation setting and
injected error code) as it is; so any number of calls of `flush` gives the
same state as one call or none, and every later operation has the same outcome
as without them. -/
theorem sink_flush_idempotent (cv : fp_conversions) (st : basic_default_json_visitor)
    (n : Nat) (c : call) (ec : error_code) :
    flush basic_default_json_visitor.impl st = st
      ∧ (flush basic_default_json_visitor.impl)^[n] st = st
      ∧ (flush basic_default_json_visitor.impl)^[n] st
        = flush basic_default_json_visitor.impl st
      ∧ c.run_ec cv basic_default_json_visitor.impl ec
          ((flush basic_default_json_visitor.impl)^[n] st)
        = c.run_ec cv basic_default_json_visitor.impl ec st
      ∧ c.run_throwing cv basic_default_json_visitor.impl
          ((flush basic_default_json_visitor.impl)^[n] st)
        = c.run_throwing cv basic_default_json_visitor.impl st := by
  have h1 : flush basic_default_json_visitor.impl st = st := rfl
  have hn : (flush basic_default_json_visitor.impl)^[n] st = st := by
    induction n with
    | zero => rfl
    | succ k ih => rw [Function.iterate_succ_apply]; exact ih
  exact ⟨h1, hn, hn.trans h1.symm, by rw [hn], by rw [hn]⟩

/-! ## Nesting of the default decompositions -/

section nesting_lemmas

variable {σ : Type}

theorem emit_seq_append (cv : fp_conversions) (v : visitor_impl σ) (s t : List event)
    (r : outcome σ) : emit_seq cv v (s ++ t) r = emit_seq cv v t (emit_seq cv v s r) := by
  simp [emit_seq]

theorem nesting_leaves (xs rest : List event) (stack : List container)
    (h : ∀ e ∈ xs, e.is_leaf = true) : nesting (xs ++ rest) stack = nesting rest stack := by
  induction xs with
  | nil => rfl
  | cons e es ih =>
    have he := h e (List.mem_cons_self e es)
    have hes : ∀ x ∈ es, x.is_leaf = true := fun x hx => h x (List.mem_cons_of_mem e hx)
    cases e <;> simp_all [nesting, event.is_leaf]

theorem element_events_leaf (cv : fp_conversions) (context : ser_context) (data : typed_span) :
    ∀ e ∈ element_events cv context data, e.is_leaf = true := by
  intro e he
  cases data <;> simp only [element_events, List.mem_map] at he <;>
    obtain ⟨x, -, rfl⟩ := he <;> rfl

theorem element_events_length (cv : fp_conversions) (context : ser_context)
    (data : typed_span) : (element_events cv context data).length = data.size := by
  cases data <;> simp [element_events, typed_span.size]

theorem countP_leaves (p : event → Bool) (xs : List event)
    (hp : ∀ e, e.is_leaf = true → p e = false) (h : ∀ e ∈ xs, e.is_leaf = true) :
    xs.countP p = 0 := by
  rw [List.countP_eq_zero]
  intro e he
  simp [hp e (h e he)]

theorem nesting_typed_array_events (cv : fp_conversions) (data : typed_span)
    (tag : semantic_tag) (context : ser_context) (rest : List event)
    (stack : List container) :
    nesting (typed_array_events cv data tag context ++ rest) stack = nesting rest stack := by
  have hshape : typed_array_events cv data tag context ++ rest
      = event.begin_array_length data.size tag context
          :: (element_events cv context data ++ (event.end_array context :: rest)) := by
    simp [typed_array_events]
  rw [hshape, nesting, nesting_leaves _ _ _ (element_events_leaf cv context data), nesting]

theorem nesting_multi_dim_events (shape : List Nat) (tag inner : semantic_tag)
    (context : ser_context) (rest : List event) (stack : List container) :
    nesting (multi_dim_events shape tag inner context ++ rest) stack
      = nesting rest (container.array :: stack) := by
  have hshape : multi_dim_events shape tag inner context ++ rest
      = event.begin_array_length 2 tag context
          :: event.begin_array_length shape.length inner context
          :: (shape.map (fun d => event.uint64_value (to_uint64 d) semantic_tag.none context)
              ++ (event.end_array context :: rest)) := by
    simp [multi_dim_events]
  rw [hshape, nesting, nesting, nesting_leaves, nesting]
  intro e he
  simp only [List.mem_map] at he
  obtain ⟨x, -, rfl⟩ := he
  rfl

theorem count_typed_array_events (cv : fp_conversions) (data : typed_span)
    (tag : semantic_tag) (context : ser_context) :
    (typed_array_events cv data tag context).countP event.is_begin_array = 1
      ∧ (typed_array_events cv data tag context).countP event.is_end_array = 1 := by
  have hl := element_events_leaf cv context data
  have hb := countP_leaves event.is_begin_array _ (by intro e he; cases e <;> simp_all [event.is_leaf, event.is_begin_array]) hl
  have he := countP_leaves event.is_end_array _ (by intro e he; cases e <;> simp_all [event.is_leaf, event.is_end_array]) hl
  simp [typed_array_events, List.countP_cons, List.countP_append, hb, he, event.is_begin_array,
    event.is_end_array]

theorem count_multi_dim_events (shape : List Nat) (tag inner : semantic_tag)
    (context : ser_context) :
    (multi_dim_events shape tag inner context).countP event.is_begin_array = 2
      ∧ (multi_dim_events shape tag inner context).countP event.is_end_array = 1 := by
  simp [multi_dim_events, List.countP_cons, List.countP_append, List.countP_map,
    event.is_begin_array, event.is_end_array, Function.comp_def]

/-- The default typed array decomposition makes every call when every call
returns continue. -/
theorem visit_typed_array_all (cv : fp_conversions) (v : visitor_impl σ)
    (hv : always_continues cv v) (data : typed_span) (tag : semantic_tag)
    (context : ser_context) (ec : error_code) (st : σ) :
    visit_typed_array cv v data tag context ec st
      = emit_seq cv v (typed_array_events cv data tag context) ⟨true, ec, st⟩ := by
  rw [visit_typed_array_eq_emit_while]
  exact emit_while_eq_emit_seq cv v _ (fun e _ => hv e) _ rfl

theorem visit_begin_multi_dim_all (cv : fp_conversions) (v : visitor_impl σ)
    (hv : always_continues cv v) (shape : List Nat) (tag : semantic_tag)
    (context : ser_context) (ec : error_code) (st : σ) :
    visit_begin_multi_dim v shape tag context ec st
      = emit_seq cv v (multi_dim_events shape tag tag context) ⟨true, ec, st⟩ := by
  rw [visit_begin_multi_dim_eq cv, if_pos (hv _ _ _), if_pos]
  · rfl
  · simp only [emit_all, List.foldl_cons, List.foldl_nil]
    exact hv _ _ _

end nesting_lemmas

/-- Claim C18. For a visitor that always continues, the default `typed_array`
of any element type and length has the outcome of the manual emission of its
event sequence, which holds one `begin_array` and one `end_array` and is well
nested; and `begin_multi_dim(shape)`, `typed_array(payload)`, `end_multi_dim`
run one after the other have the outcome of the manual emission of a sequence
that holds three `begin_array` and three `end_array` events matched in LIFO
order: from any stack of open containers the sequence ends on that same stack
and never closes a container that it did not open. -/
theorem default_decompositions_well_nested {σ : Type} (cv : fp_conversions)
    (v : visitor_impl σ) (hv : always_continues cv v) (shape : List Nat)
    (data : typed_span) (tag tag2 : semantic_tag) (context : ser_context) (ec : error_code)
    (st : σ) :
    visit_typed_array cv v data tag2 context ec st
        = emit_all cv v (typed_array_events cv data tag2 context) ec st
      ∧ (typed_array_events cv data tag2 context).countP event.is_begin_array = 1
      ∧ (typed_array_events cv data tag2 context).countP event.is_end_array = 1
      ∧ (∀ stack, nesting (typed_array_events cv data tag2 context) stack = some stack)
      ∧ visit_end_multi_dim v context
          (visit_typed_array cv v data tag2 context
            (visit_begin_multi_dim v shape tag context ec st).ec
            (visit_begin_multi_dim v shape tag context ec st).st).ec
          (visit_typed_array cv v data tag2 context
            (visit_begin_multi_dim v shape tag context ec st).ec
            (visit_begin_multi_dim v shape tag context ec st).st).st
        = emit_all cv v
            (multi_dim_events shape tag tag context
              ++ (typed_array_events cv data tag2 context ++ [event.end_array context])) ec st
      ∧ (multi_dim_events shape tag tag context
          ++ (typed_array_events cv data tag2 context
            ++ [event.end_array context])).countP event.is_begin_array = 3
      ∧ (multi_dim_events shape tag tag context
          ++ (typed_array_events cv data tag2 context
            ++ [event.end_array context])).countP event.is_end_array = 3
      ∧ (∀ stack, nesting (multi_dim_events shape tag tag context
          ++ (typed_array_events cv data tag2 context ++ [event.end_array context])) stack
        = some stack) := by
  have hc1 := count_typed_array_events cv data tag2 context
  have hc2 := count_multi_dim_events shape tag tag context
  refine ⟨?_, hc1.1, hc1.2, ?_, ?_, ?_, ?_, ?_⟩
  · rw [visit_typed_array_all cv v hv, emit_all_eq_emit_seq]
  · intro stack
    have := nesting_typed_array_events cv data tag2 context [] stack
    simpa [nesting] using this
  · rw [emit_all_eq_emit_seq, emit_seq_append, emit_seq_append, visit_begin_multi_dim_all cv v hv,
      visit_typed_array_all cv v hv]
    rfl
  · simp [List.countP_append, hc1.1, hc2.1, event.is_begin_array]
  · simp [List.countP_append, hc1.2, hc2.2, event.is_end_array]
  · intro stack
    rw [nesting_multi_dim_events, nesting_typed_array_events]
    simp [nesting]

/-- Witness for claim C18: the recording visitor that always continues, the
shape `[2, 3]` and six payload values. -/
theorem default_decompositions_well_nested_witness :
    (visit_end_multi_dim (full_recording_visitor always_continue) ⟨1, 1⟩
        (visit_typed_array ieee (full_recording_visitor always_continue)
          (typed_span.uint8 [1, 2, 3, 4, 5, 6]) semantic_tag.none ⟨1, 1⟩
          (visit_begin_multi_dim (full_recording_visitor always_continue) [2, 3]
            semantic_tag.multi_dim_row_major ⟨1, 1⟩ error_code.empty []).ec
          (visit_begin_multi_dim (full_recording_visitor always_continue) [2, 3]
            semantic_tag.multi_dim_row_major ⟨1, 1⟩ error_code.empty []).st).ec
        (visit_typed_array ieee (full_recording_visitor always_continue)
          (typed_span.uint8 [1, 2, 3, 4, 5, 6]) semantic_tag.none ⟨1, 1⟩
          (visit_begin_multi_dim (full_recording_visitor always_continue) [2, 3]
            semantic_tag.multi_dim_row_major ⟨1, 1⟩ error_code.empty []).ec
          (visit_begin_multi_dim (full_recording_visitor always_continue) [2, 3]
            semantic_tag.multi_dim_row_major ⟨1, 1⟩ error_code.empty []).st).st).st
      = [event.begin_array_length 2 semantic_tag.multi_dim_row_major ⟨1, 1⟩,
          event.begin_array_length 2 semantic_tag.multi_dim_row_major ⟨1, 1⟩,
          event.uint64_value 2 semantic_tag.none ⟨1, 1⟩,
          event.uint64_value 3 semantic_tag.none ⟨1, 1⟩,
          event.end_array ⟨1, 1⟩,
          event.begin_array_length 6 semantic_tag.none ⟨1, 1⟩,
          event.uint64_value 1 semantic_tag.none ⟨1, 1⟩,
          event.uint64_value 2 semantic_tag.none ⟨1, 1⟩,
          event.uint64_value 3 semantic_tag.none ⟨1, 1⟩,
          event.uint64_value 4 semantic_tag.none ⟨1, 1⟩,
          event.uint64_value 5 semantic_tag.none ⟨1, 1⟩,
          event.uint64_value 6 semantic_tag.none ⟨1, 1⟩,
          event.end_array ⟨1, 1⟩,
          event.end_array ⟨1, 1⟩] :=
  (default_decompositions_well_nested ieee (full_recording_visitor always_continue)
    (full_recording_always_continues ieee) [2, 3] (typed_span.uint8 [1, 2, 3, 4, 5, 6])
    semantic_tag.multi_dim_row_major semantic_tag.none ⟨1, 1⟩ error_code.empty []).2.2.2.2.1
    ▸ rfl

/-! ## Cancellation of a typed array -/

section cancellation_lemmas

variable {σ : Type}

/-- Emission with cancellation of a non-empty sequence makes the calls of an
initial segment of the sequence: every call but the last one returned continue,
and the segment is the whole sequence unless its last call returned stop. -/
theorem emit_while_segment (cv : fp_conversions) (v : visitor_impl σ) (es : List event)
    (e : event) (r : outcome σ) (hr : r.more = true) :
    ∃ n, 1 ≤ n ∧ n ≤ (e :: es).length
      ∧ emit_while cv v (e :: es) r = emit_seq cv v ((e :: es).take n) r
      ∧ answers cv v ((e :: es).take n) r.ec r.st
        = List.replicate (n - 1) true ++ [(emit_while cv v (e :: es) r).more]
      ∧ (n = (e :: es).length ∨ (emit_while cv v (e :: es) r).more = false) := by
  induction es generalizing e r with
  | nil =>
    refine ⟨1, le_refl _, le_refl _, ?_, ?_, Or.inl rfl⟩
    · simp [emit_while, emit_seq, for_while, hr]
    · simp [emit_while, for_while, hr, answers]
  | cons e2 es ih =>
    by_cases h1 : (emit cv v e r.ec r.st).more = true
    · obtain ⟨n, hn1, hn2, hrun, hans, hend⟩ := ih e2 (emit cv v e r.ec r.st) h1
      have hstep : emit_while cv v (e :: e2 :: es) r
          = emit_while cv v (e2 :: es) (emit cv v e r.ec r.st) := by
        simp [emit_while, for_while, hr]
      refine ⟨n + 1, by omega, by simp at hn2 ⊢; omega, ?_, ?_, ?_⟩
      · rw [hstep, hrun]
        simp [emit_seq]
      · rw [hstep]
        simp only [List.take_succ_cons, answers, h1, hans, Nat.add_sub_cancel]
        obtain ⟨k, rfl⟩ : ∃ k, n = k + 1 := ⟨n - 1, by omega⟩
        simp [List.replicate_succ]
      · rw [hstep]
        rcases hend with h | h
        · left; simp at h ⊢; omega
        · right; exact h
    · have h1f : (emit cv v e r.ec r.st).more = false := by simpa using h1
      have hstep : emit_while cv v (e :: e2 :: es) r = emit cv v e r.ec r.st := by
        simp [emit_while, for_while, hr, h1f]
      refine ⟨1, le_refl _, by simp, ?_, ?_, Or.inr (by rw [hstep]; exact h1f)⟩
      · rw [hstep]
        simp [emit_seq]
      · rw [hstep]
        simp [answers]

theorem to_uint64_of_lt (x : Nat) (h : x < 2 ^ 64) : to_uint64 x = x :=
  Nat.mod_eq_of_lt h

theorem to_int64_of_range (x : Int) (h1 : -2 ^ 63 ≤ x) (h2 : x < 2 ^ 63) : to_int64 x = x := by
  unfold to_int64
  rw [Int.emod_eq_of_lt (by omega) (by omega)]
  omega

end cancellation_lemmas

/-- Claim C19. For every visitor, typed array, tag, context, error slot and
state: either `begin_array` returns continue, or the default decomposition has
the outcome of the `begin_array` call alone (no element event, no `end_array`)
and returns stop; and in every case the default decomposition has the outcome
of the manual emission of the first `n` events of `begin_array`, `e_1`, ..,
`e_N`, `end_array` for some `n ≥ 1`, where every call before the `n`-th
returned continue and either the `n`-th is the last of the sequence or it
returned stop. -/
theorem typed_array_emits_initial_segment {σ : Type} (cv : fp_conversions)
    (v : visitor_impl σ) (data : typed_span) (tag : semantic_tag) (context : ser_context)
    (ec : error_code) (st : σ) :
    ((emit cv v (event.begin_array_length data.size tag context) ec st).more = true
        ∨ (visit_typed_array cv v data tag context ec st
            = emit cv v (event.begin_array_length data.size tag context) ec st
          ∧ (visit_typed_array cv v data tag context ec st).more = false))
      ∧ ∃ n, 1 ≤ n ∧ n ≤ data.size + 2
        ∧ visit_typed_array cv v data tag context ec st
          = emit_all cv v
              ((event.begin_array_length data.size tag context
                :: (element_events cv context data ++ [event.end_array context])).take n)
              ec st
        ∧ answers cv v
            ((event.begin_array_length data.size tag context
              :: (element_events cv context data ++ [event.end_array context])).take n) ec st
          = List.replicate (n - 1) true
              ++ [(visit_typed_array cv v data tag context ec st).more]
        ∧ (n = data.size + 2
          ∨ (visit_typed_array cv v data tag context ec st).more = false) := by
  have hrun := visit_typed_array_eq_emit_while cv v data tag context ec st
  simp only [typed_array_events] at hrun
  constructor
  · by_cases h : (emit cv v (event.begin_array_length data.size tag context) ec st).more = true
    · exact Or.inl h
    · have hf : (emit cv v (event.begin_array_length data.size tag context) ec st).more
          = false := by simpa using h
      have : visit_typed_array cv v data tag context ec st
          = emit cv v (event.begin_array_length data.size tag context) ec st := by
        rw [hrun]
        simp only [emit_while, for_while, if_true]
        exact for_while_stopped _ _ _ hf
      exact Or.inr ⟨this, this ▸ hf⟩
  · obtain ⟨n, hn1, hn2, hseg, hans, hend⟩ := emit_while_segment cv v
      (element_events cv context data ++ [event.end_array context])
      (event.begin_array_length data.size tag context) ⟨true, ec, st⟩ rfl
    have hlen : (event.begin_array_length data.size tag context
        :: (element_events cv context data ++ [event.end_array context])).length
        = data.size + 2 := by
      simp [element_events_length]
    rw [hlen] at hn2 hend
    rw [← hrun] at hseg hans hend
    exact ⟨n, hn1, hn2, hseg, hans, hend⟩

/-- Claim C20. For a span of an integer element type whose elements are
values of that type, the element events of the default decomposition carry the
elements themselves: `uint64_value(x)` for each element `x` of a `uint8`,
`uint16`, `uint32` or `uint64` span, `int64_value(x)` with the same
mathematical integer for each element `x` of an `int8`, `int16`, `int32` or
`int64` span (so `-1` stays `-1`); the default decomposition is the emission
with cancellation of `begin_array`, these events and `end_array`. -/
theorem integer_elements_keep_value {σ : Type} (cv : fp_conversions) (v : visitor_impl σ)
    (data : typed_span) (hint : data.is_integer = true) (hrange : data.in_range = true)
    (tag : semantic_tag) (context : ser_context) (ec : error_code) (st : σ) :
    element_events cv context data = exact_integer_events context data
      ∧ visit_typed_array cv v data tag context ec st
        = emit_while cv v
            (event.begin_array_length data.size tag context
              :: (exact_integer_events context data ++ [event.end_array context]))
            ⟨true, ec, st⟩ := by
  have hev : element_events cv context data = exact_integer_events context data := by
    cases data with
    | uint8 s | uint16 s | uint32 s | uint64 s =>
      simp only [typed_span.in_range, List.all_eq_true, decide_eq_true_eq] at hrange
      simp only [element_events, exact_integer_events]
      apply List.map_congr_left
      intro x hx
      rw [to_uint64_of_lt x (by have := hrange x hx; omega)]
    | int8 s | int16 s | int32 s | int64 s =>
      simp only [typed_span.in_range, List.all_eq_true, decide_eq_true_eq] at hrange
      simp only [element_events, exact_integer_events]
      apply List.map_congr_left
      intro x hx
      rw [to_int64_of_range x (by have := hrange x hx; omega) (by have := hrange x hx; omega)]
    | half s | float s | double s => simp [typed_span.is_integer] at hint
  refine ⟨hev, ?_⟩
  rw [visit_typed_array_eq_emit_while, typed_array_events, hev]

/-- Witness for claim C20: the `int8` span `[-1, 127, -128]` reaches the
recording visitor as `int64_value(-1)`, `int64_value(127)`,
`int64_value(-128)`. -/
theorem integer_elements_keep_value_witness :
    (visit_typed_array ieee (full_recording_visitor always_continue)
        (typed_span.int8 [-1, 127, -128]) semantic_tag.none ⟨1, 1⟩ error_code.empty []).st
      = [event.begin_array_length 3 semantic_tag.none ⟨1, 1⟩,
          event.int64_value (-1) semantic_tag.none ⟨1, 1⟩,
          event.int64_value 127 semantic_tag.none ⟨1, 1⟩,
          event.int64_value (-128) semantic_tag.none ⟨1, 1⟩,
          event.end_array ⟨1, 1⟩] :=
  (integer_elements_keep_value ieee (full_recording_visitor always_continue)
    (typed_span.int8 [-1, 127, -128]) rfl (by decide) semantic_tag.none ⟨1, 1⟩
    error_code.empty []).2 ▸ rfl

/-! ## Counted begin forms -/

/-- Claim C21. For every visitor that overrides neither counted begin form,
every count, tag, context, error slot and state, `begin_object(n, tag, context)`
has exactly the outcome of `begin_object(tag, context)` and
`begin_array(n, tag, context)` that of `begin_array(tag, context)`, in the
error-code form (the one call of the uncounted primitive, the same continuation
signal, error code and state) and in the throwing form; so the outcome is the
same for any two counts. -/
theorem counted_begin_is_uncounted {σ : Type} (v : visitor_impl σ)
    (hobj : v.visit_begin_object_length = none) (harr : v.visit_begin_array_length = none)
    (n m : Nat) (tag : semantic_tag) (context : ser_context) (ec : error_code) (st : σ) :
    begin_object_length_ec v n tag context ec st = begin_object_ec v tag context ec st
      ∧ begin_array_length_ec v n tag context ec st = begin_array_ec v tag context ec st
      ∧ begin_object_length v n tag context st = begin_object v tag context st
      ∧ begin_array_length v n tag context st = begin_array v tag context st
      ∧ begin_object_length_ec v n tag context ec st
        = begin_object_length_ec v m tag context ec st
      ∧ begin_array_length_ec v n tag context ec st
        = begin_array_length_ec v m tag context ec st := by
  simp [begin_object_length_ec, begin_object_ec, begin_array_length_ec, begin_array_ec,
    begin_object_length, begin_object, begin_array_length, begin_array,
    vcall_begin_object_length, vcall_begin_array_length, visit_begin_object_length,
    visit_begin_array_length, hobj, harr]

/-- Witness for claim C21: the primitive-only recording visitor logs
`begin_array(tag, context)` for `begin_array(5, tag, context)`. -/
theorem counted_begin_is_uncounted_witness :
    (recording_visitor always_continue).visit_begin_object_length = none
      ∧ (recording_visitor always_continue).visit_begin_array_length = none
      ∧ (begin_array_length_ec (recording_visitor always_continue) 5 semantic_tag.bigint
          ⟨4, 2⟩ error_code.empty []).st
        = [event.begin_array semantic_tag.bigint ⟨4, 2⟩] :=
  ⟨rfl, rfl, (counted_begin_is_uncounted (recording_visitor always_continue) rfl rfl 5 0
    semantic_tag.bigint ⟨4, 2⟩ error_code.empty []).2.1 ▸ rfl⟩

/-! ## The typed decode entry point -/

/-- Claim C22. For the typed `decode_bson`, every byte source and options:
with `(val, ec, cursor)` what the type-directed deserialization over the freshly
constructed cursor leaves when started with an empty error slot, `decode_bson`
raises a `ser_error` exactly when `ec` is non-zero, the raised error holds `ec`
and the line and column of the context of the cursor after the
deserialization, and otherwise `decode_bson` returns `val`. -/
theorem decode_bson_raises_iff_error {Source Options Cursor Decoder T : Type}
    (env : bson.typed_decoding Source Options Cursor Decoder T) (v : Source)
    (options : Options) :
    bson.decode_bson env v options
      = if (env.deserialize (env.make_cursor v options) env.make_decoder
            error_code.empty).ec.value ≠ 0 then
          Except.error
            ⟨(env.deserialize (env.make_cursor v options) env.make_decoder
                error_code.empty).ec,
              (env.context (env.deserialize (env.make_cursor v options) env.make_decoder
                error_code.empty).cursor).line,
              (env.context (env.deserialize (env.make_cursor v options) env.make_decoder
                error_code.empty).cursor).column⟩
        else
          Except.ok (env.deserialize (env.make_cursor v options) env.make_decoder
            error_code.empty).val := by
  by_cases h : (env.deserialize (env.make_cursor v options) env.make_decoder
      error_code.empty).ec.value = 0 <;>
    simp [bson.decode_bson, error_code.is_set, h]

/-! ## Spans of 16-bit values -/

section half_span_lemmas

variable {α σ : Type}

theorem for_while_congr (f g : α → Bool → op σ) (h : ∀ p m, f p m = g p m) (s : List α)
    (r : outcome σ) : for_while f s r = for_while g s r := by
  have : f = g := funext fun p => funext fun m => h p m
  rw [this]

end half_span_lemmas

/-- Claim C23. For a span `s` of 16-bit unsigned values, every visitor that
does not override `visit_half`, every tag, context, error slot and state: the
default `typed_array(s)` is the emission with cancellation of
`begin_array(N, tag)`, `uint64_value(x)` with tag none for each element `x`,
`end_array`; the default `typed_array(half_arg, s)` is that of
`begin_array(N, tag)`, `half_value(x)` with tag none for each element,
`end_array`, which is that of `begin_array(N, tag)`,
`double_value(decode_half(x))` with tag none for each element, `end_array`. -/
theorem uint16_span_and_half_span {σ : Type} (cv : fp_conversions) (v : visitor_impl σ)
    (hv : v.visit_half = none) (s : List Nat) (hs : ∀ x ∈ s, x < 2 ^ 16)
    (tag : semantic_tag) (context : ser_context) (ec : error_code) (st : σ) :
    visit_typed_array cv v (typed_span.uint16 s) tag context ec st
        = emit_while cv v
            (event.begin_array_length s.length tag context
              :: (s.map (fun x => event.uint64_value x semantic_tag.none context)
                ++ [event.end_array context])) ⟨true, ec, st⟩
      ∧ visit_typed_array cv v (typed_span.half s) tag context ec st
        = emit_while cv v
            (event.begin_array_length s.length tag context
              :: (s.map (fun x => event.half_value x semantic_tag.none context)
                ++ [event.end_array context])) ⟨true, ec, st⟩
      ∧ visit_typed_array cv v (typed_span.half s) tag context ec st
        = emit_while cv v
            (event.begin_array_length s.length tag context
              :: (s.map (fun x =>
                    event.double_value (cv.decode_half x) semantic_tag.none context)
                ++ [event.end_array context])) ⟨true, ec, st⟩ := by
  have hu : s.map (fun p => event.uint64_value (to_uint64 p) semantic_tag.none context)
      = s.map (fun x => event.uint64_value x semantic_tag.none context) := by
    apply List.map_congr_left
    intro x hx
    rw [to_uint64_of_lt x (by have := hs x hx; omega)]
  have hh : ∀ r : outcome σ,
      emit_while cv v (s.map (fun x => event.half_value x semantic_tag.none context)) r
        = emit_while cv v
            (s.map (fun x => event.double_value (cv.decode_half x) semantic_tag.none context))
            r := by
    intro r
    simp only [emit_while, ← for_while_map]
    apply for_while_congr
    intro p m
    funext ec0 st0
    simp [emit, half_value_ec, double_value_ec, vcall_half, visit_half, hv]
  refine ⟨?_, ?_, ?_⟩
  · rw [visit_typed_array_eq_emit_while]
    simp only [typed_array_events, element_events, typed_span.size, hu]
  · rw [visit_typed_array_eq_emit_while]
    simp only [typed_array_events, element_events, typed_span.size]
  · rw [visit_typed_array_eq_emit_while]
    simp only [typed_array_events, element_events, typed_span.size]
    simp only [emit_while, for_while, if_true, for_while_append]
    have := hh (emit cv v (event.begin_array_length s.length tag context) ec st)
    simp only [emit_while] at this
    rw [this]

/-- Witness for claim C23: the span `[0x3C00, 0]` reaches the primitive-only
recording visitor as `uint64_value(15360)`, `uint64_value(0)` without the half
marker and as `double_value` of the bit patterns of `1.0` and `+0.0` with
it. -/
theorem uint16_span_and_half_span_witness :
    (visit_typed_array ieee (recording_visitor always_continue) (typed_span.uint16 [15360, 0])
        semantic_tag.none ⟨1, 1⟩ error_code.empty []).st
        = [event.begin_array semantic_tag.none ⟨1, 1⟩,
            event.uint64_value 15360 semantic_tag.none ⟨1, 1⟩,
            event.uint64_value 0 semantic_tag.none ⟨1, 1⟩,
            event.end_array ⟨1, 1⟩]
      ∧ (visit_typed_array ieee (recording_visitor always_continue)
          (typed_span.half [15360, 0]) semantic_tag.none ⟨1, 1⟩ error_code.empty []).st
        = [event.begin_array semantic_tag.none ⟨1, 1⟩,
            event.double_value double_one semantic_tag.none ⟨1, 1⟩,
            event.double_value double_positive_zero semantic_tag.none ⟨1, 1⟩,
            event.end_array ⟨1, 1⟩] :=
  have h := uint16_span_and_half_span ieee (recording_visitor always_continue) rfl [15360, 0]
    (by decide) semantic_tag.none ⟨1, 1⟩ error_code.empty []
  ⟨h.1 ▸ by decide, h.2.2 ▸ by decide⟩

/-! ## Frame of the sink -/

/-- Claim C24. For the sink, every operation and every content of the error
slot of the caller: after the operation the slot holds the injected code when
that code is non-zero, and what it held before otherwise; so the sink
constructed with the empty error code leaves an empty slot empty and a slot
that holds a non-zero code with that code. -/
theorem sink_writes_slot_only_on_error (cv : fp_conversions) (b : Bool) (e : error_code)
    (c : call) (ec : error_code) :
    (c.run_ec cv basic_default_json_visitor.impl ec (basic_default_json_visitor.make b e)).ec
        = (if e.value ≠ 0 then e else ec)
      ∧ (c.run_ec cv basic_default_json_visitor.impl ec
          (basic_default_json_visitor.make b error_code.empty)).ec = ec
      ∧ (c.run_ec cv basic_default_json_visitor.impl error_code.empty
          (basic_default_json_visitor.make b error_code.empty)).ec = error_code.empty := by
  refine ⟨?_, ?_, ?_⟩
  · by_cases he : e.value = 0 <;>
      simp [sink_run_ec, basic_default_json_visitor.visit_body,
        basic_default_json_visitor.make, error_code.is_set, he]
  · simp [sink_run_ec, basic_default_json_visitor.visit_body,
      basic_default_json_visitor.make, error_code.is_set, error_code.empty]
  · simp [sink_run_ec, basic_default_json_visitor.visit_body,
      basic_default_json_visitor.make, error_code.is_set, error_code.empty]

section sink_state_lemmas

theorem sink_operation_run (cv : fp_conversions) (o : operation)
    (st : basic_default_json_visitor) : o.run cv basic_default_json_visitor.impl st = st := by
  cases o with
  | error_code_form c ec => simp [operation.run, sink_run_ec, basic_default_json_visitor.visit_body]
  | throwing_form c =>
    simp only [operation.run]
    rw [run_throwing_eq, throw_if_set_eq]
    simp [sink_run_ec, basic_default_json_visitor.visit_body]
  | flush => rfl

end sink_state_lemmas

/-- Claim C25. On the sink no operation (error-code form, throwing form or
`flush`) changes the continuation setting or the injected error code; so after
any finite sequence of operations the state is the one before it, and every
call has the outcome, signal and code, that it has on the sink as
constructed. -/
theorem sink_configuration_invariant (cv : fp_conversions) (st : basic_default_json_visitor)
    (o : operation) (ops : List operation) (c : call) (ec : error_code) :
    (o.run cv basic_default_json_visitor.impl st).parse_more_ = st.parse_more_
      ∧ (o.run cv basic_default_json_visitor.impl st).ec_ = st.ec_
      ∧ state_after cv basic_default_json_visitor.impl ops st = st
      ∧ (c.run_ec cv basic_default_json_visitor.impl ec
          (state_after cv basic_default_json_visitor.impl ops st)).more
        = (c.run_ec cv basic_default_json_visitor.impl ec st).more
      ∧ (c.run_ec cv basic_default_json_visitor.impl ec
          (state_after cv basic_default_json_visitor.impl ops st)).ec
        = (c.run_ec cv basic_default_json_visitor.impl ec st).ec
      ∧ c.run_throwing cv basic_default_json_visitor.impl
          (state_after cv basic_default_json_visitor.impl ops st)
        = c.run_throwing cv basic_default_json_visitor.impl st := by
  have hops : state_after cv basic_default_json_visitor.impl ops st = st := by
    induction ops generalizing st with
    | nil => rfl
    | cons o1 os ih =>
      show state_after cv basic_default_json_visitor.impl os
        (o1.run cv basic_default_json_visitor.impl st) = st
      rw [sink_operation_run]
      exact ih st
  rw [hops, sink_operation_run]
  exact ⟨rfl, rfl, rfl, rfl, rfl, rfl⟩

/-! ## Deprecated byte string overloads -/

/-- Claim C26. For every visitor, byte string, hint, tag, context and state,
the deprecated `byte_string_value` overloads that take an encoding hint (the
one on a view and the one on a pointer and a size) are
`byte_string_value(bytes, tag1, context)`, where `tag1` is `base16`, `base64`
or `base64url` when the hint is respectively `base16`, `base64` or `base64url`,
whatever tag the caller passed, and the tag of the caller for any other
hint. -/
theorem byte_string_value_hint_tag {σ : Type} (v : visitor_impl σ) (bytes : List Nat)
    (hint : byte_string_chars_format) (tag : semantic_tag) (context : ser_context) (st : σ) :
    byte_string_value_hint v bytes hint tag context st
        = byte_string_value v bytes
            (if hint = byte_string_chars_format.base16 then semantic_tag.base16
              else if hint = byte_string_chars_format.base64 then semantic_tag.base64
              else if hint = byte_string_chars_format.base64url then semantic_tag.base64url
              else tag) context st
      ∧ byte_string_value_pointer_hint v bytes hint tag context st
        = byte_string_value v bytes
            (if hint = byte_string_chars_format.base16 then semantic_tag.base16
              else if hint = byte_string_chars_format.base64 then semantic_tag.base64
              else if hint = byte_string_chars_format.base64url then semantic_tag.base64url
              else tag) context st := by
  cases hint <;> exact ⟨rfl, rfl⟩

end jsoncons
